import Mathlib

/-!
# Nightscout segment: cached fetch, symbol mapping, façade

Shallow embedding of `segment_nightscout.go`.

* Go `string` and `[]byte` are both `String`; the conversions between them are the identity.
* Go `int` / `int64` are `Int` (the segment performs no arithmetic on them).
* A Go `error` is identified with its message.
* `*nightscoutData` is `Option nightscoutData` (`none` is the nil pointer).
* A Go function returning `(*nightscoutData, error)` returns the pair of both values.
* A run-time panic is the `fault` outcome.
* The collaborators (`environmentInfo`: HTTP transport and cache store) act on an explicit
  world state `W` that is threaded through every call.
* The closure stored in `getFunc` is kept as data (`Fetch`) and interpreted by `Fetch.call`
  against the receiver as it is at call time (the Go closures capture the receiver pointer).
-/

namespace Nightscout

/-! ## Values shared with the rest of the package -/

/-- A Go `error`, identified with the text returned by `Error()`. -/
structure GoError where
  msg : String
deriving DecidableEq, Repr

/-- Result of running Go code that may panic: a normal return or a run-time fault. -/
inductive Outcome (α : Type) where
  | ret (a : α)
  | fault (reason : String)
deriving DecidableEq, Repr

deriving instance DecidableEq for Except

abbrev Property := String

def URL : Property := "url"
def DoubleUpIcon : Property := "doubleup_icon"
def SingleUpIcon : Property := "singleup_icon"
def FortyFiveUpIcon : Property := "fortyfiveup_icon"
def FlatIcon : Property := "flat_icon"
def FortyFiveDownIcon : Property := "fortyfivedown_icon"
def SingleDownIcon : Property := "singledown_icon"
def DoubleDownIcon : Property := "doubledown_icon"
def NSCacheTimeout : Property := "cache_timeout"

/-- Modelled from the spec: the property key `http_timeout`, shared with sibling segments
and declared outside this file. -/
def HTTPTimeout : Property := "http_timeout"

/-- Modelled from the spec: the property key `segment_template`, shared with sibling
segments and declared outside this file. -/
def SegmentTemplate : Property := "segment_template"

/-- A value held by the configuration store (`interface{}` in Go). -/
inductive PropValue where
  | str (s : String)
  | int (n : Int)
deriving DecidableEq, Repr

/-- Modelled from the spec: the configuration store `properties`, a key/value lookup
(`values`) read through typed getters with a default. -/
structure properties where
  values : Property → Option PropValue

/-- Modelled from the spec: typed getter `getString(key, default)` of the configuration
store; the default is returned when the key holds no string. -/
def properties.getString (p : properties) (property : Property) (defaultValue : String) :
    String :=
  match p.values property with
  | some (.str s) => s
  | _ => defaultValue

/-- Modelled from the spec: typed getter `getInt(key, default)` of the configuration store;
the default is returned when the key holds no integer. -/
def properties.getInt (p : properties) (property : Property) (defaultValue : Int) : Int :=
  match p.values property with
  | some (.int n) => n
  | _ => defaultValue

/-- The record read from the remote endpoint (`json:"sgv"`, `json:"direction"`). -/
structure nightscoutData where
  Sgv : Int
  Direction : String
deriving DecidableEq, Repr

/-- Go return pair `(*nightscoutData, error)`. -/
abbrev FetchResult := Option nightscoutData × Option GoError

/-- A bound Go closure `func() (*nightscoutData, error)` acting on the world. -/
abbrev Closure (W : Type) := W → Outcome FetchResult × W

/-- Modelled from the spec: the collaborator interface `environmentInfo`, as far as the
segment uses it: `doGet(url, timeout)`, `cache().get(key)` and `cache().set(key, value, ttl)`.
Every call may read and change the world. -/
structure environmentInfo (W : Type) where
  doGet : String → Int → W → (String × Option GoError) × W
  cacheGet : String → W → (String × Bool) × W
  cacheSet : String → String → Int → W → W

/-- The three `encoding/json` calls the segment makes, which belong to Go's standard
library and are a parameter here:
`unmarshalArr body` is `json.Unmarshal(body, &arr)` with `arr []*nightscoutData`,
`unmarshalData s` is `json.Unmarshal([]byte(s), &nightscoutData{})`,
`marshal data` is `json.Marshal(data)` with `data *nightscoutData`. -/
structure JsonCodec where
  unmarshalArr : String → Except GoError (List (Option nightscoutData))
  unmarshalData : String → Except GoError nightscoutData
  marshal : Option nightscoutData → Except GoError String

/-- What the segment uses from outside this file and outside the collaborators: the JSON
codec and the constant `DefaultHTTPTimeout` (declared elsewhere in the package). -/
structure Deps where
  json : JsonCodec
  DefaultHTTPTimeout : Int

/-! ## The segment -/

/-- The function value stored in `getFunc`: nil, the method value `ns.getData`, or the
closure returned by `ns.withCache`. -/
inductive Fetch where
  | unbound
  | getData
  | withCache (wrappedFunc : Fetch)
deriving DecidableEq, Repr

/-- Segment struct. -/
structure nightscout (W : Type) where
  props : properties
  env : environmentInfo W
  url : String
  cacheTimeout : Int
  getFunc : Fetch
  Sgv : Int
  Direction : String
  TrendIcon : String

variable {W : Type}

def nightscout.getTrendIcon (ns : nightscout W) : String :=
  if ns.Direction = "DoubleUp" then ns.props.getString DoubleUpIcon "↑↑"
  else if ns.Direction = "SingleUp" then ns.props.getString SingleUpIcon "↑"
  else if ns.Direction = "FortyFiveUp" then ns.props.getString FortyFiveUpIcon "↗"
  else if ns.Direction = "Flat" then ns.props.getString FlatIcon "→"
  else if ns.Direction = "FortyFiveDown" then ns.props.getString FortyFiveDownIcon "↘"
  else if ns.Direction = "SingleDown" then ns.props.getString SingleDownIcon "↓"
  else if ns.Direction = "DoubleDown" then ns.props.getString DoubleDownIcon "↓↓"
  else ""

def nightscout.getData (D : Deps) (ns : nightscout W) : Closure W := fun w =>
  let httpTimeout := ns.props.getInt HTTPTimeout D.DefaultHTTPTimeout
  match ns.env.doGet ns.url httpTimeout w with
  | ((_, some err), w1) => (.ret (none, some err), w1)
  | ((body, none), w1) =>
    match D.json.unmarshalArr body with
    | .error err => (.ret (none, some err), w1)
    | .ok arr =>
      match arr with
      | [] => (.fault "index out of range [0] with length 0", w1)
      | firstelement :: _ => (.ret (firstelement, none), w1)

def nightscout.withCache (D : Deps) (ns : nightscout W) (wrappedFunc : Closure W) :
    Closure W := fun w =>
  let cacheKey := ns.url
  match ns.env.cacheGet cacheKey w with
  | ((serializedDataFromCache, foundInCache), w1) =>
    let fromCache : Option nightscoutData :=
      if foundInCache then
        match D.json.unmarshalData serializedDataFromCache with
        | .ok dataFromCache => some dataFromCache
        | .error _ => none
      else none
    match fromCache with
    | some dataFromCache => (.ret (some dataFromCache, none), w1)
    | none =>
      match wrappedFunc w1 with
      | (.fault reason, w2) => (.fault reason, w2)
      | (.ret (_, some err), w2) => (.ret (none, some err), w2)
      | (.ret (data, none), w2) =>
        match D.json.marshal data with
        | .ok serializedData =>
          (.ret (data, none), ns.env.cacheSet cacheKey serializedData ns.cacheTimeout w2)
        | .error _ => (.ret (data, none), w2)

/-- Calling the function value held in `getFunc` on the receiver `ns`. -/
def Fetch.call (D : Deps) (ns : nightscout W) : Fetch → Closure W
  | .unbound => fun w => (.fault "call of nil func", w)
  | .getData => ns.getData D
  | .withCache wrappedFunc => ns.withCache D (Fetch.call D ns wrappedFunc)

def nightscout.isCacheEnabled (ns : nightscout W) : Bool :=
  decide (ns.cacheTimeout > 0)

def nightscout.init (ns : nightscout W) (props : properties) (env : environmentInfo W) :
    nightscout W :=
  let ns := { ns with props := props }
  let ns := { ns with env := env }
  let ns := { ns with url := ns.props.getString URL "" }
  let ns := { ns with cacheTimeout := ns.props.getInt NSCacheTimeout 5 }
  let ns := { ns with getFunc := Fetch.getData }
  if ns.isCacheEnabled then { ns with getFunc := Fetch.withCache ns.getFunc } else ns

def nightscout.enabled (D : Deps) (ns : nightscout W) (w : W) :
    Outcome (Bool × nightscout W) × W :=
  match ns.getFunc.call D ns w with
  | (.fault reason, w1) => (.fault reason, w1)
  | (.ret (_, some _), w1) => (.ret (false, ns), w1)
  | (.ret (none, none), w1) => (.fault "nil pointer dereference", w1)
  | (.ret (some data, none), w1) =>
    let ns := { ns with Sgv := data.Sgv }
    let ns := { ns with Direction := data.Direction }
    let ns := { ns with TrendIcon := ns.getTrendIcon }
    (.ret (true, ns), w1)

/-- Modelled from the spec: the `textTemplate` handed to the template renderer: the
template text, the segment as context and the environment. -/
structure textTemplate (W : Type) where
  Template : String
  Context : nightscout W
  Env : environmentInfo W

/-- Modelled from the spec: the collaborator `render(templateText, context) -> (text, error)`,
a parameter of the model. -/
abbrev Renderer (W : Type) := textTemplate W → String × Option GoError

def nightscout.string (render : Renderer W) (ns : nightscout W) : String :=
  let segmentTemplate := ns.props.getString SegmentTemplate "\x7b\x7b.Sgv\x7d\x7d"
  let template : textTemplate W :=
    { Template := segmentTemplate, Context := ns, Env := ns.env }
  match render template with
  | (_, some err) => err.msg
  | (text, none) => text

/-- The states reachable from a segment with zero-valued `Sgv`, `Direction` and `TrendIcon`
(its other fields are overwritten by `init`) by `init props env` followed by calls of
`enabled` that return, each call started in an arbitrary world. -/
inductive Reachable (D : Deps) (props : properties) (env : environmentInfo W) :
    nightscout W → Prop where
  | start (ns : nightscout W) (hS : ns.Sgv = 0) (hD : ns.Direction = "")
      (hT : ns.TrendIcon = "") : Reachable D props env (ns.init props env)
  | step (ns ns1 : nightscout W) (w w1 : W) (b : Bool) (h : Reachable D props env ns)
      (hcall : ns.enabled D w = (.ret (b, ns1), w1)) : Reachable D props env ns1

/-! ## A reference JSON codec

`goJson` follows `encoding/json` for the two Go types the segment decodes into and the one
it encodes, on JSON texts without `\u` surrogate escapes and with keys compared up to ASCII
letter case; the texts of its errors are not those of Go.  It instantiates `JsonCodec`
wherever the segment is run on a concrete text. -/

/-- A JSON value; `real` is a number literal with a fraction or an exponent. -/
inductive Json where
  | null
  | bool (b : Bool)
  | int (n : Int)
  | real
  | str (s : String)
  | arr (xs : List Json)
  | obj (kvs : List (String × Json))
deriving Repr

def dquote : Char := Char.ofNat 34

def bslash : Char := Char.ofNat 92

def skipWs : List Char → List Char
  | c :: rest => if c = ' ' ∨ c = '\n' ∨ c = '\t' ∨ c = '\r' then skipWs rest else c :: rest
  | [] => []

def hexVal (c : Char) : Option Nat :=
  if '0' ≤ c ∧ c ≤ '9' then some (c.toNat - 48)
  else if 'a' ≤ c ∧ c ≤ 'f' then some (c.toNat - 87)
  else if 'A' ≤ c ∧ c ≤ 'F' then some (c.toNat - 55)
  else none

/-- The character of a `\uXXXX` escape; a surrogate code unit becomes U+FFFD. -/
def escapedChar (a b c d : Nat) : Char :=
  let n := ((a * 16 + b) * 16 + c) * 16 + d
  if 0xD800 ≤ n ∧ n ≤ 0xDFFF then Char.ofNat 0xFFFD else Char.ofNat n

/-- Reads the rest of a string literal, after the opening quote; `acc` holds the characters
read so far, newest first. -/
def readString : List Char → List Char → Option (String × List Char)
  | [], _ => none
  | c :: rest, acc =>
    if c = dquote then some (String.mk acc.reverse, rest)
    else if c = bslash then
      match rest with
      | [] => none
      | e :: rest =>
        if e = 'u' then
          match rest with
          | h1 :: h2 :: h3 :: h4 :: rest =>
            match hexVal h1, hexVal h2, hexVal h3, hexVal h4 with
            | some a, some b, some c, some d => readString rest (escapedChar a b c d :: acc)
            | _, _, _, _ => none
          | _ => none
        else if e = dquote then readString rest (dquote :: acc)
        else if e = bslash then readString rest (bslash :: acc)
        else if e = '/' then readString rest ('/' :: acc)
        else if e = 'n' then readString rest ('\n' :: acc)
        else if e = 't' then readString rest ('\t' :: acc)
        else if e = 'r' then readString rest ('\r' :: acc)
        else if e = 'b' then readString rest (Char.ofNat 8 :: acc)
        else if e = 'f' then readString rest (Char.ofNat 12 :: acc)
        else none
    else if c.toNat < 32 then none
    else readString rest (c :: acc)

/-- Splits off the leading decimal digits. -/
def readDigits : List Char → List Char × List Char
  | c :: rest =>
    if '0' ≤ c ∧ c ≤ '9' then ((c :: (readDigits rest).1), (readDigits rest).2)
    else ([], c :: rest)
  | [] => ([], [])

def digitsVal (ds : List Char) : Nat :=
  ds.foldl (fun n c => n * 10 + (c.toNat - 48)) 0

/-- A decimal digit character. -/
def isDigitChar (c : Char) : Prop := '0' ≤ c ∧ c ≤ '9'

instance (c : Char) : Decidable (isDigitChar c) := by unfold isDigitChar; infer_instance

/-- Reads an optional fraction; the flag tells whether one was present. -/
def readFrac : List Char → Option (Bool × List Char)
  | [] => some (false, [])
  | c :: rest =>
    if c = '.' then
      match readDigits rest with
      | ([], _) => none
      | (_, rest) => some (true, rest)
    else some (false, c :: rest)

/-- Reads an optional exponent; the flag tells whether one was present. -/
def readExp : List Char → Option (Bool × List Char)
  | [] => some (false, [])
  | c :: rest =>
    if c = 'e' ∨ c = 'E' then
      let rest := match rest with
        | [] => []
        | s :: r => if s = '+' ∨ s = '-' then r else s :: r
      match readDigits rest with
      | ([], _) => none
      | (_, rest) => some (true, rest)
    else some (false, c :: rest)

/-- Reads a number literal; without fraction and exponent it is an integer. -/
def readNumber : List Char → Option (Json × List Char)
  | [] => none
  | c :: rest =>
    let neg : Bool := decide (c = '-')
    match readDigits (if neg then rest else c :: rest) with
    | ([], _) => none
    | (d :: ds, rest) =>
      if d = '0' ∧ ds ≠ [] then none
      else
        match readFrac rest with
        | none => none
        | some (frac, rest) =>
          match readExp rest with
          | none => none
          | some (exp, rest) =>
            if frac ∨ exp then some (Json.real, rest)
            else if neg then some (Json.int (-(digitsVal (d :: ds) : Int)), rest)
            else some (Json.int (digitsVal (d :: ds)), rest)

mutual
/-- Reads one JSON value; `fuel` bounds the nesting and the number of members. -/
def readValue : Nat → List Char → Option (Json × List Char)
  | 0, _ => none
  | fuel + 1, cs =>
    match skipWs cs with
    | [] => none
    | c :: rest =>
      if c = '{' then
        match skipWs rest with
        | [] => none
        | c1 :: rest1 =>
          if c1 = '}' then some (Json.obj [], rest1) else readMembers fuel (c1 :: rest1) []
      else if c = '[' then
        match skipWs rest with
        | [] => none
        | c1 :: rest1 =>
          if c1 = ']' then some (Json.arr [], rest1) else readElems fuel (c1 :: rest1) []
      else if c = dquote then
        match readString rest [] with
        | none => none
        | some (s, rest) => some (Json.str s, rest)
      else if c = 'n' then
        match rest with
        | 'u' :: 'l' :: 'l' :: rest => some (Json.null, rest)
        | _ => none
      else if c = 't' then
        match rest with
        | 'r' :: 'u' :: 'e' :: rest => some (Json.bool true, rest)
        | _ => none
      else if c = 'f' then
        match rest with
        | 'a' :: 'l' :: 's' :: 'e' :: rest => some (Json.bool false, rest)
        | _ => none
      else readNumber (c :: rest)
/-- Reads the elements of an array up to the closing bracket. -/
def readElems : Nat → List Char → List Json → Option (Json × List Char)
  | 0, _, _ => none
  | fuel + 1, cs, acc =>
    match readValue fuel cs with
    | none => none
    | some (v, rest) =>
      match skipWs rest with
      | [] => none
      | c :: rest =>
        if c = ',' then readElems fuel rest (v :: acc)
        else if c = ']' then some (Json.arr (v :: acc).reverse, rest)
        else none
/-- Reads the members of an object up to the closing brace. -/
def readMembers : Nat → List Char → List (String × Json) → Option (Json × List Char)
  | 0, _, _ => none
  | fuel + 1, cs, acc =>
    match skipWs cs with
    | [] => none
    | c :: rest =>
      if c = dquote then
        match readString rest [] with
        | none => none
        | some (k, rest) =>
          match skipWs rest with
          | [] => none
          | c1 :: rest =>
            if c1 = ':' then
              match readValue fuel rest with
              | none => none
              | some (v, rest) =>
                match skipWs rest with
                | [] => none
                | c2 :: rest =>
                  if c2 = ',' then readMembers fuel rest ((k, v) :: acc)
                  else if c2 = '}' then some (Json.obj ((k, v) :: acc).reverse, rest)
                  else none
            else none
      else none
end

/-- Reads a whole JSON text: one value, surrounded by white space only. -/
def readJson (s : String) : Except GoError Json :=
  match readValue (s.length + 1) s.data with
  | some (v, rest) =>
    if skipWs rest = [] then .ok v else .error ⟨"invalid character after top-level value"⟩
  | none => .error ⟨"invalid JSON text"⟩

/-- A JSON key selects a struct field when it equals the field's JSON name, also up to
ASCII letter case. -/
def keyMatches (name key : String) : Bool :=
  key = name || String.mk (key.data.map Char.toLower) = name

/-- Decoding into an `int64` field that holds `cur`. -/
def decodeInt64 (v : Json) (cur : Int) : Except GoError Int :=
  match v with
  | .null => .ok cur
  | .int n =>
    if -9223372036854775808 ≤ n ∧ n ≤ 9223372036854775807 then .ok n
    else .error ⟨"json: cannot unmarshal number into Go value of type int64"⟩
  | _ => .error ⟨"json: cannot unmarshal into Go value of type int64"⟩

/-- Decoding into a `string` field that holds `cur`. -/
def decodeString (v : Json) (cur : String) : Except GoError String :=
  match v with
  | .null => .ok cur
  | .str s => .ok s
  | _ => .error ⟨"json: cannot unmarshal into Go value of type string"⟩

/-- Decoding the members of an object into a `nightscoutData` that holds `cur`: members
are taken in order, unknown keys are skipped. -/
def decodeMembers : List (String × Json) → nightscoutData → Except GoError nightscoutData
  | [], cur => .ok cur
  | (k, v) :: rest, cur =>
    if keyMatches "sgv" k then
      match decodeInt64 v cur.Sgv with
      | .ok n => decodeMembers rest { cur with Sgv := n }
      | .error e => .error e
    else if keyMatches "direction" k then
      match decodeString v cur.Direction with
      | .ok s => decodeMembers rest { cur with Direction := s }
      | .error e => .error e
    else decodeMembers rest cur

/-- Decoding into a `nightscoutData` that holds `cur`. -/
def decodeData (v : Json) (cur : nightscoutData) : Except GoError nightscoutData :=
  match v with
  | .null => .ok cur
  | .obj kvs => decodeMembers kvs cur
  | _ => .error ⟨"json: cannot unmarshal into Go value of type nightscoutData"⟩

/-- Decoding into a nil `*nightscoutData`. -/
def decodePtr (v : Json) : Except GoError (Option nightscoutData) :=
  match v with
  | .null => .ok none
  | v =>
    match decodeData v ⟨0, ""⟩ with
    | .ok r => .ok (some r)
    | .error e => .error e

def decodeElems : List Json → Except GoError (List (Option nightscoutData))
  | [] => .ok []
  | v :: rest =>
    match decodePtr v with
    | .error e => .error e
    | .ok d =>
      match decodeElems rest with
      | .error e => .error e
      | .ok ds => .ok (d :: ds)

/-- Decoding into a nil `[]*nightscoutData`. -/
def decodeSlice (v : Json) : Except GoError (List (Option nightscoutData)) :=
  match v with
  | .null => .ok []
  | .arr xs => decodeElems xs
  | _ => .error ⟨"json: cannot unmarshal into Go value of type []*nightscoutData"⟩

def hexDigit (n : Nat) : Char :=
  if n < 10 then Char.ofNat (48 + n) else Char.ofNat (87 + n)

/-- The encoding of one character inside a string literal. -/
def quoteChar (c : Char) : List Char :=
  if c = dquote then [bslash, dquote]
  else if c = bslash then [bslash, bslash]
  else if c = '\n' then [bslash, 'n']
  else if c = '\r' then [bslash, 'r']
  else if c = '\t' then [bslash, 't']
  else if c.toNat < 32 ∨ c = '<' ∨ c = '>' ∨ c = '&' ∨ c.toNat = 0x2028 ∨ c.toNat = 0x2029 then
    [bslash, 'u', hexDigit (c.toNat / 4096 % 16), hexDigit (c.toNat / 256 % 16),
      hexDigit (c.toNat / 16 % 16), hexDigit (c.toNat % 16)]
  else [c]

def quoteChars : List Char → List Char
  | [] => []
  | c :: rest => quoteChar c ++ quoteChars rest

/-- The decimal text of an integer. -/
def showInt (n : Int) : List Char :=
  match n with
  | .ofNat m => Nat.toDigits 10 m
  | .negSucc m => '-' :: Nat.toDigits 10 (m + 1)

/-- The text `json.Marshal` writes for a `*nightscoutData`. -/
def encodeData : Option nightscoutData → List Char
  | none => "null".data
  | some r =>
    "\x7b\"sgv\":".data ++ showInt r.Sgv ++ ",\"direction\":\"".data
      ++ quoteChars r.Direction.data ++ "\"\x7d".data

def goJson : JsonCodec where
  unmarshalArr := fun body =>
    match readJson body with
    | .error e => .error e
    | .ok v => decodeSlice v
  unmarshalData := fun s =>
    match readJson s with
    | .error e => .error e
    | .ok v => decodeData v ⟨0, ""⟩
  marshal := fun data => .ok (String.mk (encodeData data))

/-! ## A recording environment -/

/-- One call made to a collaborator. -/
inductive Call where
  | doGet (url : String) (timeout : Int)
  | cacheGet (key : String)
  | cacheSet (key value : String) (ttl : Int)
deriving DecidableEq, Repr

/-- The world of the recording environment: what the remote endpoint answers, the entries
of the cache store (newest first) and the calls made so far (oldest first). -/
structure World where
  remote : String → String × Option GoError
  store : List (String × String)
  calls : List Call

/-- An environment that answers `doGet` from `remote`, answers `cache().get` by `lookup`
and records every call; `cache().set` adds an entry. -/
def MockedEnvironment (lookup : World → String → String × Bool) : environmentInfo World where
  doGet := fun url timeout w => (w.remote url, { w with calls := w.calls ++ [Call.doGet url timeout] })
  cacheGet := fun key w => (lookup w key, { w with calls := w.calls ++ [Call.cacheGet key] })
  cacheSet := fun key value ttl w =>
    { w with store := (key, value) :: w.store, calls := w.calls ++ [Call.cacheSet key value ttl] }

/-- Lookup in the store: the newest entry under the key. -/
def storeLookup (w : World) (key : String) : String × Bool :=
  match w.store.lookup key with
  | some value => (value, true)
  | none => ("", false)

/-- An environment whose cache returns the last value set under a key. -/
def storeEnvironment : environmentInfo World := MockedEnvironment storeLookup

/-- The zero-valued segment struct (with the properties and environment given). -/
def nightscout.zero (props : properties) (env : environmentInfo W) : nightscout W :=
  { props := props, env := env, url := "", cacheTimeout := 0, getFunc := Fetch.unbound,
    Sgv := 0, Direction := "", TrendIcon := "" }

/-- A configuration store holding the listed entries. -/
def propsOf (entries : List (Property × PropValue)) : properties :=
  { values := fun k => entries.lookup k }

def stdDeps : Deps := { json := goJson, DefaultHTTPTimeout := 20 }

/-- The configuration of the tests: `cache_timeout` set to `ttl`, `url` set to `FAKE`. -/
def testProps (ttl : Int) : properties :=
  propsOf [(NSCacheTimeout, .int ttl), (URL, .str "FAKE")]

/-- A world whose remote endpoint answers every GET with `body` and `err`, with an empty
cache store and no call made yet. -/
def testWorld (body : String) (err : Option GoError) : World :=
  { remote := fun _ => (body, err), store := [], calls := [] }

/-- An environment whose cache answers every lookup with `answer`. -/
def cannedCache (answer : String × Bool) : environmentInfo World :=
  MockedEnvironment (fun _ _ => answer)

/-- The text `json.Marshal` gives for the record cached in `TestDataFromCacheReturned`. -/
def cachedPayload : String := "\x7b\"sgv\":100,\"direction\":\"FortyFiveDown\"\x7d"

/-- A response body with a single record. -/
def flatBody : String := "[\x7b\"sgv\":150,\"direction\":\"Flat\"\x7d]"

/-- A response body with a single record of direction `DoubleDown`. -/
def downBody : String := "[\x7b\"sgv\":50,\"direction\":\"DoubleDown\"\x7d]"

/-- The template of the tests. -/
def testTemplate : String := " \x7b\x7b.Sgv\x7d\x7d\x7b\x7b.TrendIcon\x7d\x7d"

/-! ## A reference renderer

`fieldRenderer` substitutes the actions `{{.Sgv}}`, `{{.Direction}}` and `{{.TrendIcon}}` of
a template by the fields of the context; any other action is an error. -/

/-- A piece of a template: literal text, or the body of an action `{{ ... }}`. -/
inductive Piece where
  | text (cs : List Char)
  | action (cs : List Char)
deriving DecidableEq, Repr

/-- Splits a template into its pieces; `inAction` tells whether an action is open and `acc`
holds the characters of the current piece, newest first.  An action left open gives none. -/
def splitTemplate (inAction : Bool) : List Char → List Char → Option (List Piece)
  | [], acc => if inAction then none else some [Piece.text acc.reverse]
  | c :: rest, acc =>
    match rest with
    | [] => if inAction then none else some [Piece.text (c :: acc).reverse]
    | c1 :: rest1 =>
      if inAction then
        if c = '}' ∧ c1 = '}' then
          match splitTemplate false rest1 [] with
          | none => none
          | some ps => some (Piece.action acc.reverse :: ps)
        else splitTemplate true (c1 :: rest1) (c :: acc)
      else
        if c = '{' ∧ c1 = '{' then
          match splitTemplate true rest1 [] with
          | none => none
          | some ps => some (Piece.text acc.reverse :: ps)
        else splitTemplate false (c1 :: rest1) (c :: acc)

/-- The text of one piece for the context `ns`. -/
def renderPiece (ns : nightscout W) : Piece → Except GoError (List Char)
  | .text cs => .ok cs
  | .action cs =>
    if cs = ".Sgv".data then .ok (showInt ns.Sgv)
    else if cs = ".Direction".data then .ok ns.Direction.data
    else if cs = ".TrendIcon".data then .ok ns.TrendIcon.data
    else .error ⟨"template: can't evaluate field"⟩

def renderPieces (ns : nightscout W) : List Piece → Except GoError (List Char)
  | [] => .ok []
  | p :: ps =>
    match renderPiece ns p with
    | .error e => .error e
    | .ok cs =>
      match renderPieces ns ps with
      | .error e => .error e
      | .ok rest => .ok (cs ++ rest)

def fieldRenderer : Renderer W := fun t =>
  match splitTemplate false t.Template.data [] with
  | none => ("", some ⟨"template: unclosed action"⟩)
  | some ps =>
    match renderPieces t.Context ps with
    | .error e => ("", some e)
    | .ok cs => (String.mk cs, none)

/-- The configuration of `TestNSSegment`: caching off, `url` set to `FAKE` and the template
of the tests. -/
def templateProps : properties :=
  propsOf [(NSCacheTimeout, .int 0), (URL, .str "FAKE"), (SegmentTemplate, .str testTemplate)]

/-- A zero-valued segment initialized with `props` and `env`. -/
def testSegment (props : properties) (env : environmentInfo World) : nightscout World :=
  (nightscout.zero props env).init props env

end Nightscout

/-! ## Symbol mapper -/

namespace Nightscout

variable {W : Type}

theorem getString_absent (p : properties) (k : Property) (d : String)
    (h : p.values k = none) : p.getString k d = d := by
  simp [properties.getString, h]

theorem getString_str (p : properties) (k : Property) (d s : String)
    (h : p.values k = some (.str s)) : p.getString k d = s := by
  simp [properties.getString, h]

theorem getString_congr (p q : properties) (k : Property) (d : String)
    (h : q.values k = p.values k) : q.getString k d = p.getString k d := by
  simp [properties.getString, h]

/-- C9: for each of the seven recognized direction codes, `getTrendIcon` returns the
built-in glyph of that code when the code's own icon property is not configured, the
configured string when it is, and the result depends on no other property (nor on any
other field of the segment). -/
theorem getTrendIcon_recognized (ns : nightscout W) (code : String) (prop : Property)
    (glyph : String)
    (hmem : (code, prop, glyph) ∈
      [("DoubleUp", DoubleUpIcon, "↑↑"), ("SingleUp", SingleUpIcon, "↑"),
       ("FortyFiveUp", FortyFiveUpIcon, "↗"), ("Flat", FlatIcon, "→"),
       ("FortyFiveDown", FortyFiveDownIcon, "↘"), ("SingleDown", SingleDownIcon, "↓"),
       ("DoubleDown", DoubleDownIcon, "↓↓")])
    (hdir : ns.Direction = code) :
    (ns.props.values prop = none → ns.getTrendIcon = glyph) ∧
    (∀ s, ns.props.values prop = some (.str s) → ns.getTrendIcon = s) ∧
    (∀ ns' : nightscout W, ns'.Direction = code →
      ns'.props.values prop = ns.props.values prop → ns'.getTrendIcon = ns.getTrendIcon) := by
  have key : ∀ m : nightscout W, m.Direction = code →
      m.getTrendIcon = m.props.getString prop glyph := by
    intro m hm
    simp only [List.mem_cons, Prod.mk.injEq, List.mem_singleton, List.not_mem_nil,
      or_false] at hmem
    rcases hmem with h | h | h | h | h | h | h <;>
      obtain ⟨rfl, rfl, rfl⟩ := h <;>
      simp [nightscout.getTrendIcon, hm]
  refine ⟨fun h => ?_, fun s h => ?_, fun ns' hd hp => ?_⟩
  · rw [key ns hdir, getString_absent _ _ _ h]
  · rw [key ns hdir, getString_str _ _ _ _ h]
  · rw [key ns hdir, key ns' hd, getString_congr _ _ _ _ hp]

/-- C9 at a concrete segment: direction `Flat`, `flat_icon` not configured, all six other
icon properties overridden. -/
theorem getTrendIcon_recognized_witness :
    ({ nightscout.zero (propsOf [(DoubleUpIcon, .str "a"), (SingleUpIcon, .str "b"),
        (FortyFiveUpIcon, .str "c"), (FortyFiveDownIcon, .str "d"),
        (SingleDownIcon, .str "e"), (DoubleDownIcon, .str "f")]) storeEnvironment with
        Direction := "Flat" }).getTrendIcon = "→" :=
  (getTrendIcon_recognized _ "Flat" FlatIcon "→" (by simp) rfl).1 (by decide)

/-- C10: for a direction that is none of the seven recognized codes, `getTrendIcon`
returns the empty string, whatever the configuration holds. -/
theorem getTrendIcon_unrecognized (ns : nightscout W)
    (h : ns.Direction ∉ ["DoubleUp", "SingleUp", "FortyFiveUp", "Flat", "FortyFiveDown",
      "SingleDown", "DoubleDown"]) :
    ns.getTrendIcon = "" := by
  simp only [List.mem_cons, List.mem_singleton, List.not_mem_nil, or_false, not_or] at h
  obtain ⟨h1, h2, h3, h4, h5, h6, h7⟩ := h
  simp [nightscout.getTrendIcon, h1, h2, h3, h4, h5, h6, h7]

/-- C10 at the lower-case direction `flat`, with `flat_icon` overridden. -/
theorem getTrendIcon_unrecognized_witness :
    ({ nightscout.zero (propsOf [(FlatIcon, .str "F")]) storeEnvironment with
        Direction := "flat" }).getTrendIcon = "" :=
  getTrendIcon_unrecognized _ (by decide)

/-! ## Round trip of the reference codec -/

theorem digitChar_isDigit : ∀ k, k < 10 → isDigitChar (Nat.digitChar k) := by decide

theorem digitChar_val : ∀ k, k < 10 → (Nat.digitChar k).toNat - 48 = k := by decide

theorem digitChar_ne_zero : ∀ k, k < 10 → k ≠ 0 → Nat.digitChar k ≠ '0' := by decide

theorem toDigitsCore_digits (fuel : Nat) : ∀ (n : Nat) (ds : List Char),
    (∀ c ∈ ds, isDigitChar c) → ∀ c ∈ Nat.toDigitsCore 10 fuel n ds, isDigitChar c := by
  induction fuel with
  | zero => intro n ds h; simpa [Nat.toDigitsCore] using h
  | succ fuel ih =>
    intro n ds h
    have hd : isDigitChar (Nat.digitChar (n % 10)) :=
      digitChar_isDigit _ (Nat.mod_lt _ (by decide))
    have hcons : ∀ c ∈ Nat.digitChar (n % 10) :: ds, isDigitChar c := by
      intro c hc
      rcases List.mem_cons.mp hc with rfl | hc
      · exact hd
      · exact h c hc
    simp only [Nat.toDigitsCore]
    split
    · exact hcons
    · exact ih _ _ hcons

theorem toDigitsCore_val (fuel : Nat) : ∀ (n : Nat) (ds : List Char), n < fuel →
    (Nat.toDigitsCore 10 fuel n ds).foldl (fun n c => n * 10 + (c.toNat - 48)) 0 =
      ds.foldl (fun n c => n * 10 + (c.toNat - 48)) n := by
  induction fuel with
  | zero => intro n ds h; omega
  | succ fuel ih =>
    intro n ds h
    simp only [Nat.toDigitsCore]
    split
    · next h0 =>
      have hn : n % 10 = n := by omega
      have hv := digitChar_val _ (Nat.mod_lt n (by decide))
      rw [hn] at hv
      simp [List.foldl, hn, hv]
    · next h0 =>
      rw [ih (n / 10) _ (by omega)]
      simp only [List.foldl, digitChar_val _ (Nat.mod_lt n (by decide))]
      congr 1
      omega

theorem toDigitsCore_head (fuel : Nat) : ∀ (n : Nat) (ds : List Char), n < fuel → n ≠ 0 →
    ∃ d rest, Nat.toDigitsCore 10 fuel n ds = d :: rest ∧ d ≠ '0' := by
  induction fuel with
  | zero => intro n ds h; omega
  | succ fuel ih =>
    intro n ds h hn
    simp only [Nat.toDigitsCore]
    split
    · next h0 =>
      refine ⟨_, _, rfl, digitChar_ne_zero _ (Nat.mod_lt n (by decide)) ?_⟩
      omega
    · next h0 => exact ih (n / 10) _ (by omega) h0

theorem readDigits_append (xs : List Char) (c : Char) (tail : List Char)
    (hxs : ∀ x ∈ xs, isDigitChar x) (hc : ¬ isDigitChar c) :
    readDigits (xs ++ c :: tail) = (xs, c :: tail) := by
  induction xs with
  | nil =>
    have : ¬ ('0' ≤ c ∧ c ≤ '9') := hc
    simp [readDigits, this]
  | cons x xs ih =>
    have hx : '0' ≤ x ∧ x ≤ '9' := hxs x (List.mem_cons_self _ _)
    have := ih (fun y hy => hxs y (List.mem_cons_of_mem _ hy))
    simp [readDigits, hx, this]

/-- The decimal text of a natural number: digits only, of the right value, with no
leading zero. -/
theorem toDigits_spec (m : Nat) :
    ∃ d ds, Nat.toDigits 10 m = d :: ds ∧ (∀ x ∈ d :: ds, isDigitChar x) ∧
      digitsVal (d :: ds) = m ∧ ¬ (d = '0' ∧ ds ≠ []) := by
  by_cases hm : m = 0
  · subst hm
    exact ⟨'0', [], by decide, by decide, by decide, by decide⟩
  · obtain ⟨d, ds, hds, hd⟩ := toDigitsCore_head (m + 1) m [] (by omega) hm
    refine ⟨d, ds, hds, ?_, ?_, fun h => hd h.1⟩
    · rw [← hds]
      exact toDigitsCore_digits _ _ _ (by simp)
    · rw [← hds]
      have := toDigitsCore_val (m + 1) m [] (by omega)
      simpa [digitsVal, Nat.toDigits] using this

theorem isDigitChar_ne_minus (c : Char) (h : isDigitChar c) : c ≠ '-' := by
  rintro rfl
  revert h
  decide

/-- Reading back the decimal text of an integer that is followed by a comma. -/
theorem readNumber_showInt (n : Int) (tail : List Char) :
    readNumber (showInt n ++ ',' :: tail) = some (Json.int n, ',' :: tail) := by
  have hcomma : ¬ isDigitChar ',' := by decide
  cases n with
  | ofNat m =>
    obtain ⟨d, ds, hds, hall, hval, hlead⟩ := toDigits_spec m
    have hrd := readDigits_append (d :: ds) ',' tail hall hcomma
    have hneg : d ≠ '-' := isDigitChar_ne_minus d (hall d (List.mem_cons_self _ _))
    simp only [showInt, hds, List.cons_append] at hrd ⊢
    simp [readNumber, hneg, hrd, hlead, readFrac, readExp, hval]
  | negSucc m =>
    obtain ⟨d, ds, hds, hall, hval, hlead⟩ := toDigits_spec (m + 1)
    have hrd := readDigits_append (d :: ds) ',' tail hall hcomma
    simp only [showInt, hds, List.cons_append] at hrd ⊢
    simp [readNumber, hrd, hlead, readFrac, readExp, hval, Int.negSucc_eq]

theorem hexVal_hexDigit : ∀ k, k < 16 → hexVal (hexDigit k) = some k := by decide

/-- The four hexadecimal digits of a code point below U+D800 give the character back. -/
theorem escapedChar_nibbles (c : Char) (h : c.toNat < 0xD800) :
    escapedChar (c.toNat / 4096 % 16) (c.toNat / 256 % 16) (c.toNat / 16 % 16)
      (c.toNat % 16) = c := by
  have hn : ((c.toNat / 4096 % 16 * 16 + c.toNat / 256 % 16) * 16 + c.toNat / 16 % 16) * 16
      + c.toNat % 16 = c.toNat := by omega
  have hs : ¬ (0xD800 ≤ c.toNat ∧ c.toNat ≤ 0xDFFF) := by omega
  simp only [escapedChar, hn, hs, if_false]
  exact Char.ofNat_toNat c

/-- One step of `readString` on a non-empty input. -/
theorem readString_cons (c : Char) (rest acc : List Char) :
    readString (c :: rest) acc =
      if c = dquote then some (String.mk acc.reverse, rest)
      else if c = bslash then
        match rest with
        | [] => none
        | e :: rest =>
          if e = 'u' then
            match rest with
            | h1 :: h2 :: h3 :: h4 :: rest =>
              match hexVal h1, hexVal h2, hexVal h3, hexVal h4 with
              | some a, some b, some c, some d => readString rest (escapedChar a b c d :: acc)
              | _, _, _, _ => none
            | _ => none
          else if e = dquote then readString rest (dquote :: acc)
          else if e = bslash then readString rest (bslash :: acc)
          else if e = '/' then readString rest ('/' :: acc)
          else if e = 'n' then readString rest ('\n' :: acc)
          else if e = 't' then readString rest ('\t' :: acc)
          else if e = 'r' then readString rest ('\r' :: acc)
          else if e = 'b' then readString rest (Char.ofNat 8 :: acc)
          else if e = 'f' then readString rest (Char.ofNat 12 :: acc)
          else none
      else if c.toNat < 32 then none
      else readString rest (c :: acc) := by
  conv_lhs => rw [readString.eq_def]

/-- Reading one encoded character gives the character back. -/
theorem readString_quoteChar (c : Char) (rest acc : List Char) :
    readString (quoteChar c ++ rest) acc = readString rest (c :: acc) := by
  have b1 : bslash ≠ dquote := by decide
  have d1 : dquote ≠ 'u' := by decide
  have b2 : bslash ≠ 'u' := by decide
  unfold quoteChar
  split_ifs with h1 h2 h3 h4 h5 h6
  · subst h1
    simp [readString_cons, b1, d1]
  · subst h2
    simp [readString_cons, b1, b2]
  · subst h3
    have e1 : ('n' : Char) ≠ 'u' := by decide
    have e2 : ('n' : Char) ≠ dquote := by decide
    have e3 : ('n' : Char) ≠ bslash := by decide
    simp [readString_cons, b1, e1, e2, e3]
  · subst h4
    have e1 : ('r' : Char) ≠ 'u' := by decide
    have e2 : ('r' : Char) ≠ dquote := by decide
    have e3 : ('r' : Char) ≠ bslash := by decide
    simp [readString_cons, b1, e1, e2, e3]
  · subst h5
    have e1 : ('t' : Char) ≠ 'u' := by decide
    have e2 : ('t' : Char) ≠ dquote := by decide
    have e3 : ('t' : Char) ≠ bslash := by decide
    simp [readString_cons, b1, e1, e2, e3]
  · have hlt : c.toNat < 0xD800 := by
      rcases h6 with h | h | h | h | h | h
      · omega
      · subst h; decide
      · subst h; decide
      · subst h; decide
      · omega
      · omega
    have hx := escapedChar_nibbles c hlt
    simp [readString_cons, b1, hexVal_hexDigit _ (Nat.mod_lt _ (by decide : 0 < 16)), hx]
  · have h7 : ¬ c.toNat < 32 := fun h => h6 (Or.inl h)
    simp [readString_cons, h1, h2, h7]

/-- Reading an encoded string up to its closing quote gives the string back. -/
theorem readString_quoteChars (ds : List Char) : ∀ (acc tail : List Char),
    readString (quoteChars ds ++ dquote :: tail) acc =
      some (String.mk (acc.reverse ++ ds), tail) := by
  induction ds with
  | nil => intro acc tail; simp [quoteChars, readString_cons]
  | cons c ds ih =>
    intro acc tail
    rw [quoteChars, List.append_assoc, readString_quoteChar, ih]
    simp

theorem skipWs_cons (c : Char) (rest : List Char)
    (h : ¬ (c = ' ' ∨ c = '\n' ∨ c = '\t' ∨ c = '\r')) : skipWs (c :: rest) = c :: rest := by
  simp only [skipWs, h, if_false]

/-- The first character of the decimal text of an integer is a digit or the minus sign. -/
theorem showInt_head (n : Int) :
    ∃ x xs, showInt n = x :: xs ∧ (isDigitChar x ∨ x = '-') := by
  cases n with
  | ofNat m =>
    obtain ⟨d, ds, hds, hall, -, -⟩ := toDigits_spec m
    exact ⟨d, ds, by simp [showInt, hds], Or.inl (hall d (List.mem_cons_self _ _))⟩
  | negSucc m => exact ⟨'-', _, rfl, Or.inr rfl⟩

/-- A value that starts with a digit or a minus sign is read as a number. -/
theorem readValue_number (fuel : Nat) (x : Char) (rest : List Char)
    (hx : isDigitChar x ∨ x = '-') :
    readValue (fuel + 1) (x :: rest) = readNumber (x :: rest) := by
  have hws : ¬ (x = ' ' ∨ x = '\n' ∨ x = '\t' ∨ x = '\r') := by
    rintro (h | h | h | h) <;> subst h <;> revert hx <;> decide
  have h1 : x ≠ '{' := by rintro rfl; revert hx; decide
  have h2 : x ≠ '[' := by rintro rfl; revert hx; decide
  have h3 : x ≠ dquote := by rintro rfl; revert hx; decide
  have h4 : x ≠ 'n' := by rintro rfl; revert hx; decide
  have h5 : x ≠ 't' := by rintro rfl; revert hx; decide
  have h6 : x ≠ 'f' := by rintro rfl; revert hx; decide
  rw [readValue.eq_def]
  simp only [skipWs_cons x rest hws, h1, h2, h3, h4, h5, h6, if_false]

/-- A value that starts with a quote is read as a string. -/
theorem readValue_string (fuel : Nat) (rest : List Char) :
    readValue (fuel + 1) (dquote :: rest) =
      match readString rest [] with
      | none => none
      | some (s, rest) => some (Json.str s, rest) := by
  have hws : ¬ (dquote = ' ' ∨ dquote = '\n' ∨ dquote = '\t' ∨ dquote = '\r') := by decide
  have h1 : dquote ≠ '{' := by decide
  have h2 : dquote ≠ '[' := by decide
  rw [readValue.eq_def]
  simp only [skipWs_cons dquote rest hws, h1, h2, if_false, if_true]

/-- An opening brace followed by a quote starts the members of an object. -/
theorem readValue_object (fuel : Nat) (rest : List Char) :
    readValue (fuel + 1) ('{' :: dquote :: rest) = readMembers fuel (dquote :: rest) [] := by
  have hws : ¬ (('{' : Char) = ' ' ∨ ('{' : Char) = '\n' ∨ ('{' : Char) = '\t' ∨
      ('{' : Char) = '\r') := by decide
  have hws2 : ¬ (dquote = ' ' ∨ dquote = '\n' ∨ dquote = '\t' ∨ dquote = '\r') := by decide
  have h1 : dquote ≠ '}' := by decide
  rw [readValue.eq_def]
  simp only [skipWs_cons _ _ hws, skipWs_cons dquote rest hws2, h1, if_false, if_true]

/-- One member of an object whose key, colon and value stand without white space. -/
theorem readMembers_member (fuel : Nat) (rest rest1 rest2 : List Char) (k : String)
    (v : Json) (c2 : Char) (acc : List (String × Json))
    (hkey : readString rest [] = some (k, ':' :: rest1))
    (hval : readValue fuel rest1 = some (v, c2 :: rest2))
    (hc2 : c2 = ',' ∨ c2 = '}') :
    readMembers (fuel + 1) (dquote :: rest) acc =
      if c2 = ',' then readMembers fuel rest2 ((k, v) :: acc)
      else some (Json.obj ((k, v) :: acc).reverse, rest2) := by
  have hws : ¬ (dquote = ' ' ∨ dquote = '\n' ∨ dquote = '\t' ∨ dquote = '\r') := by decide
  have hws1 : ¬ ((':' : Char) = ' ' ∨ (':' : Char) = '\n' ∨ (':' : Char) = '\t' ∨
      (':' : Char) = '\r') := by decide
  have hws2 : ¬ (c2 = ' ' ∨ c2 = '\n' ∨ c2 = '\t' ∨ c2 = '\r') := by
    rcases hc2 with h | h <;> subst h <;> decide
  rw [readMembers.eq_def]
  simp only [skipWs_cons dquote rest hws, if_true, hkey, skipWs_cons _ _ hws1, hval,
    skipWs_cons c2 rest2 hws2]
  rcases hc2 with h | h
  · subst h; simp
  · subst h; simp

/-- The JSON value read from the text written for a record. -/
theorem readValue_encodeData (r : nightscoutData) (fuel : Nat) :
    readValue (fuel + 4) (encodeData (some r)) =
      some (Json.obj [("sgv", Json.int r.Sgv), ("direction", Json.str r.Direction)], []) := by
  have henc : encodeData (some r) =
      '{' :: dquote :: (quoteChars "sgv".data ++ dquote :: ':' :: (showInt r.Sgv ++
        ',' :: dquote :: (quoteChars "direction".data ++ dquote :: ':' :: dquote ::
          (quoteChars r.Direction.data ++ dquote :: ['}'])))) := by
    have hq1 : quoteChars ['s', 'g', 'v'] = ['s', 'g', 'v'] := by decide
    have hq2 : quoteChars ['d', 'i', 'r', 'e', 'c', 't', 'i', 'o', 'n'] =
        ['d', 'i', 'r', 'e', 'c', 't', 'i', 'o', 'n'] := by decide
    simp only [encodeData, dquote, hq1, hq2, List.cons_append, List.append_assoc,
      List.nil_append]
  have hkey1 := readString_quoteChars "sgv".data []
    (':' :: (showInt r.Sgv ++ ',' :: dquote :: (quoteChars "direction".data ++
      dquote :: ':' :: dquote :: (quoteChars r.Direction.data ++ dquote :: ['}']))))
  have hkey2 := readString_quoteChars "direction".data []
    (':' :: dquote :: (quoteChars r.Direction.data ++ dquote :: ['}']))
  have hstr := readString_quoteChars r.Direction.data [] ['}']
  obtain ⟨x, xs, hx, hxd⟩ := showInt_head r.Sgv
  have hnum : readValue (fuel + 2) (showInt r.Sgv ++ ',' :: dquote ::
      (quoteChars "direction".data ++ dquote :: ':' :: dquote ::
        (quoteChars r.Direction.data ++ dquote :: ['}']))) =
      some (Json.int r.Sgv, ',' :: dquote :: (quoteChars "direction".data ++
        dquote :: ':' :: dquote :: (quoteChars r.Direction.data ++ dquote :: ['}']))) := by
    rw [← readNumber_showInt, hx, List.cons_append]
    exact readValue_number _ _ _ hxd
  have hval2 : readValue (fuel + 1) (dquote :: (quoteChars r.Direction.data ++
      dquote :: ['}'])) = some (Json.str r.Direction, '}' :: []) := by
    rw [readValue_string, hstr]
    simp
  rw [henc, readValue_object,
    readMembers_member (fuel + 2) _ _ _ _ _ ',' [] hkey1 hnum (Or.inl rfl), if_pos rfl,
    readMembers_member (fuel + 1) _ _ _ _ _ '}' _ hkey2 hval2 (Or.inr rfl)]
  simp

/-- Round trip of the reference codec: the text written for a record whose `Sgv` is an
`int64` is read back as that record. -/
theorem goJson_round_trip (r : nightscoutData)
    (hlo : -9223372036854775808 ≤ r.Sgv) (hhi : r.Sgv ≤ 9223372036854775807) :
    goJson.marshal (some r) = .ok (String.mk (encodeData (some r))) ∧
    goJson.unmarshalData (String.mk (encodeData (some r))) = .ok r := by
  refine ⟨rfl, ?_⟩
  have hlen : 3 ≤ (encodeData (some r)).length := by
    simp only [encodeData, List.length_append, List.length_cons, List.length_nil]
    omega
  have hfuel : (String.mk (encodeData (some r))).length + 1 =
      ((encodeData (some r)).length - 3) + 4 := by
    simp only [String.length]
    omega
  have hk1 : keyMatches "sgv" "sgv" = true := by decide
  have hk2 : keyMatches "sgv" "direction" = false := by decide
  have hk3 : keyMatches "direction" "direction" = true := by decide
  simp only [goJson, readJson, hfuel, readValue_encodeData, skipWs, if_true, decodeData,
    decodeMembers, hk1, hk2, hk3, decodeInt64, decodeString, hlo, hhi, and_self]
  simp

/-! ## Cache decorator -/

/-- C1: on a cache hit whose payload deserializes to `r`, the function returned by
`withCache` returns `r` with no error and leaves the world as the lookup left it: the
wrapped function is not run (the result is the same for every wrapped function) and
nothing is written to the cache. -/
theorem withCache_hit (D : Deps) (ns : nightscout W) (wrappedFunc : Closure W) (w w1 : W)
    (u p : String) (r : nightscoutData)
    (hurl : ns.url = u)
    (hget : ns.env.cacheGet u w = ((p, true), w1))
    (hdec : D.json.unmarshalData p = .ok r) :
    ns.withCache D wrappedFunc w = (.ret (some r, none), w1) ∧
    ∀ other : Closure W, ns.withCache D other w = ns.withCache D wrappedFunc w := by
  subst hurl
  have h : ∀ f : Closure W, ns.withCache D f w = (.ret (some r, none), w1) := by
    intro f
    simp [nightscout.withCache, hget, hdec]
  exact ⟨h wrappedFunc, fun other => by rw [h other, h wrappedFunc]⟩

/-- C2: on a cache miss with the wrapped function returning `data` and no error, the
function returned by `withCache` runs the wrapped function once, on the world the lookup
left, returns `data` with no error, and the only further effect is the single write
`set(u, s, cacheTimeout)` when `data` serializes to `s`; when it does not serialize, there
is no write and `data` is returned all the same. -/
theorem withCache_miss (D : Deps) (ns : nightscout W) (wrappedFunc : Closure W)
    (w w1 w2 : W) (u p : String) (t : Int) (data : Option nightscoutData)
    (hurl : ns.url = u) (httl : ns.cacheTimeout = t)
    (hget : ns.env.cacheGet u w = ((p, false), w1))
    (hinner : wrappedFunc w1 = (.ret (data, none), w2)) :
    (ns.withCache D wrappedFunc w).1 = .ret (data, none) ∧
    (∀ s, D.json.marshal data = .ok s →
      (ns.withCache D wrappedFunc w).2 = ns.env.cacheSet u s t w2) ∧
    (∀ e, D.json.marshal data = .error e → (ns.withCache D wrappedFunc w).2 = w2) := by
  subst hurl httl
  refine ⟨?_, fun s hs => ?_, fun e he => ?_⟩
  · cases hm : D.json.marshal data <;> simp [nightscout.withCache, hget, hinner, hm]
  · simp [nightscout.withCache, hget, hinner, hs]
  · simp [nightscout.withCache, hget, hinner, he]

/-- The path taken by `withCache` when the cache gives no record: the wrapped function is
run on the world the lookup left and a record it returns is written back. -/
theorem withCache_fallthrough (D : Deps) (ns : nightscout W) (wrappedFunc : Closure W)
    (w w1 : W) (p : String) (found : Bool)
    (hget : ns.env.cacheGet ns.url w = ((p, found), w1))
    (hmiss : found = false ∨ ∃ e', D.json.unmarshalData p = .error e') :
    ns.withCache D wrappedFunc w =
      (match wrappedFunc w1 with
        | (.fault reason, w2) => (.fault reason, w2)
        | (.ret (_, some err), w2) => (.ret (none, some err), w2)
        | (.ret (data, none), w2) =>
          match D.json.marshal data with
          | .ok serializedData =>
            (.ret (data, none), ns.env.cacheSet ns.url serializedData ns.cacheTimeout w2)
          | .error _ => (.ret (data, none), w2)) := by
  rcases hmiss with rfl | ⟨e', he'⟩
  · simp [nightscout.withCache, hget]
  · cases found <;> simp [nightscout.withCache, hget, he']

/-- C3: when the lookup is a miss, or a hit whose payload does not deserialize, and the
wrapped function returns the error `e`, the function returned by `withCache` returns `e`
and no record, and leaves the world as the wrapped function left it: nothing is written
to the cache. -/
theorem withCache_inner_error (D : Deps) (ns : nightscout W) (wrappedFunc : Closure W)
    (w w1 w2 : W) (p : String) (found : Bool) (data : Option nightscoutData) (e : GoError)
    (hget : ns.env.cacheGet ns.url w = ((p, found), w1))
    (hmiss : found = false ∨ ∃ e', D.json.unmarshalData p = .error e')
    (hinner : wrappedFunc w1 = (.ret (data, some e), w2)) :
    ns.withCache D wrappedFunc w = (.ret (none, some e), w2) := by
  rw [withCache_fallthrough D ns wrappedFunc w w1 p found hget hmiss, hinner]

/-- C4: a hit whose payload does not deserialize is treated as a miss.  For two segments
that differ only in what their cache store answers for the key (a payload `p` that fails
to deserialize, against not found), the function returned by `withCache` gives the same
result and the same final world, write included; the result is the one of the wrapped
function (a fault, its error, or its record), never the deserialization error. -/
theorem withCache_corrupt_eq_miss (D : Deps) (nsA nsB : nightscout W)
    (wrappedFunc : Closure W) (w w1 : W) (u p p' : String) (e : GoError)
    (hurlA : nsA.url = u) (hurlB : nsB.url = u)
    (httl : nsA.cacheTimeout = nsB.cacheTimeout)
    (hset : nsA.env.cacheSet = nsB.env.cacheSet)
    (hA : nsA.env.cacheGet u w = ((p, true), w1))
    (hdec : D.json.unmarshalData p = .error e)
    (hB : nsB.env.cacheGet u w = ((p', false), w1)) :
    nsA.withCache D wrappedFunc w = nsB.withCache D wrappedFunc w ∧
    (nsA.withCache D wrappedFunc w).1 =
      (match (wrappedFunc w1).1 with
        | .fault reason => .fault reason
        | .ret (_, some err) => .ret (none, some err)
        | .ret (data, none) => .ret (data, none)) := by
  rw [← hurlA] at hA
  rw [← hurlB] at hB
  rw [withCache_fallthrough D nsA wrappedFunc w w1 p true hA (Or.inr ⟨e, hdec⟩),
    withCache_fallthrough D nsB wrappedFunc w w1 p' false hB (Or.inl rfl),
    hurlA, hurlB, httl, hset]
  refine ⟨rfl, ?_⟩
  rcases wrappedFunc w1 with ⟨o, w2⟩
  rcases o with ⟨data, err⟩ | reason
  · cases err with
    | some err => rfl
    | none => cases hm : D.json.marshal data <;> simp [hm]
  · rfl

/-- C5: with a cache store that returns under the key the value last set under it, and a
codec that reads the text it writes for `r` back as `r`: after a first call that misses and
whose wrapped function returns `r`, a second call returns `r` with no error and does
nothing but the lookup, whatever function is wrapped. -/
theorem withCache_second_call (D : Deps) (ns : nightscout W) (wrappedFunc other : Closure W)
    (w w1 w2 : W) (p : String) (r : nightscoutData)
    (hfaithful : ∀ (v : String) (t : Int) (w' : W),
      (ns.env.cacheGet ns.url (ns.env.cacheSet ns.url v t w')).1 = (v, true))
    (hround : ∃ s, D.json.marshal (some r) = .ok s ∧ D.json.unmarshalData s = .ok r)
    (hmiss : ns.env.cacheGet ns.url w = ((p, false), w1))
    (hinner : wrappedFunc w1 = (.ret (some r, none), w2)) :
    ns.withCache D other (ns.withCache D wrappedFunc w).2 =
      (.ret (some r, none), (ns.env.cacheGet ns.url (ns.withCache D wrappedFunc w).2).2) := by
  obtain ⟨s, hser, hback⟩ := hround
  have h1 : (ns.withCache D wrappedFunc w).2 = ns.env.cacheSet ns.url s ns.cacheTimeout w2 := by
    simp [nightscout.withCache, hmiss, hinner, hser]
  rw [h1]
  have h2 := hfaithful s ns.cacheTimeout w2
  rcases hg : ns.env.cacheGet ns.url (ns.env.cacheSet ns.url s ns.cacheTimeout w2)
    with ⟨ans, w3⟩
  rw [hg] at h2
  simp only at h2
  subst h2
  simp [nightscout.withCache, hg, hback]

/-- When the GET succeeds and the body decodes to an array with a first element,
`getData` returns that element and no error. -/
theorem getData_first (D : Deps) (ns : nightscout W) (w w1 : W) (body : String)
    (first : Option nightscoutData) (rest : List (Option nightscoutData))
    (hget : ns.env.doGet ns.url (ns.props.getInt HTTPTimeout D.DefaultHTTPTimeout) w =
      ((body, none), w1))
    (hparse : D.json.unmarshalArr body = .ok (first :: rest)) :
    ns.getData D w = (.ret (first, none), w1) := by
  simp [nightscout.getData, hget, hparse]

/-- When the GET fails, `getData` returns its error. -/
theorem getData_get_error (D : Deps) (ns : nightscout W) (w w1 : W) (body : String)
    (e : GoError)
    (hget : ns.env.doGet ns.url (ns.props.getInt HTTPTimeout D.DefaultHTTPTimeout) w =
      ((body, some e), w1)) :
    ns.getData D w = (.ret (none, some e), w1) := by
  simp [nightscout.getData, hget]

/-- The cache of `storeEnvironment` returns under a key the value last set under it. -/
theorem storeEnvironment_faithful (k v : String) (t : Int) (w : World) :
    (storeEnvironment.cacheGet k (storeEnvironment.cacheSet k v t w)).1 = (v, true) := by
  simp [storeEnvironment, MockedEnvironment, storeLookup, List.lookup]

/-- C1 on the data of `TestDataFromCacheReturned`: the cache answers `FAKE` with the
serialized record (100, FortyFiveDown); the only call made is the lookup. -/
theorem withCache_hit_witness :
    (testSegment (testProps 1) (cannedCache (cachedPayload, true))).withCache stdDeps
        ((testSegment (testProps 1) (cannedCache (cachedPayload, true))).getData stdDeps)
        (testWorld "nonsense" none) =
      (.ret (some ⟨100, "FortyFiveDown"⟩, none),
        { testWorld "nonsense" none with calls := [Call.cacheGet "FAKE"] }) :=
  (withCache_hit stdDeps (testSegment (testProps 1) (cannedCache (cachedPayload, true)))
    ((testSegment (testProps 1) (cannedCache (cachedPayload, true))).getData stdDeps)
    (testWorld "nonsense" none)
    { testWorld "nonsense" none with calls := [Call.cacheGet "FAKE"] }
    "FAKE" cachedPayload ⟨100, "FortyFiveDown"⟩ (by decide) rfl (by decide)).1

/-- C2 on an empty store and a remote answering with one record: the record is returned
and the calls are the lookup, the GET and one write under `FAKE` with TTL 1. -/
theorem withCache_miss_witness :
    ((testSegment (testProps 1) storeEnvironment).withCache stdDeps
        ((testSegment (testProps 1) storeEnvironment).getData stdDeps)
        (testWorld flatBody none)).1 = .ret (some ⟨150, "Flat"⟩, none) ∧
    ((testSegment (testProps 1) storeEnvironment).withCache stdDeps
        ((testSegment (testProps 1) storeEnvironment).getData stdDeps)
        (testWorld flatBody none)).2.calls =
      [Call.cacheGet "FAKE", Call.doGet "FAKE" 20,
        Call.cacheSet "FAKE" "\x7b\"sgv\":150,\"direction\":\"Flat\"\x7d" 1] := by
  have h := withCache_miss stdDeps (testSegment (testProps 1) storeEnvironment)
    ((testSegment (testProps 1) storeEnvironment).getData stdDeps)
    (testWorld flatBody none)
    { testWorld flatBody none with calls := [Call.cacheGet "FAKE"] }
    { testWorld flatBody none with calls := [Call.cacheGet "FAKE", Call.doGet "FAKE" 20] }
    "FAKE" "" 1 (some ⟨150, "Flat"⟩) (by decide) (by decide) rfl
    (getData_first stdDeps _ _ _ flatBody (some ⟨150, "Flat"⟩) [] rfl (by decide))
  refine ⟨h.1, ?_⟩
  rw [h.2.1 "\x7b\"sgv\":150,\"direction\":\"Flat\"\x7d" (by decide)]
  rfl

/-- C3 on an empty store and a failing GET (the case "Error in retrieving data"): the
error of the GET is returned, the store stays empty and no write is among the calls. -/
theorem withCache_inner_error_witness :
    (testSegment (testProps 1) storeEnvironment).withCache stdDeps
        ((testSegment (testProps 1) storeEnvironment).getData stdDeps)
        (testWorld "nonsense" (some ⟨"Something went wrong"⟩)) =
      (.ret (none, some ⟨"Something went wrong"⟩),
        { testWorld "nonsense" (some ⟨"Something went wrong"⟩) with
          calls := [Call.cacheGet "FAKE", Call.doGet "FAKE" 20] }) :=
  withCache_inner_error stdDeps (testSegment (testProps 1) storeEnvironment)
    ((testSegment (testProps 1) storeEnvironment).getData stdDeps)
    (testWorld "nonsense" (some ⟨"Something went wrong"⟩))
    { testWorld "nonsense" (some ⟨"Something went wrong"⟩) with
      calls := [Call.cacheGet "FAKE"] }
    { testWorld "nonsense" (some ⟨"Something went wrong"⟩) with
      calls := [Call.cacheGet "FAKE", Call.doGet "FAKE" 20] }
    "" false none ⟨"Something went wrong"⟩ rfl (Or.inl rfl)
    (getData_get_error stdDeps _ _ _ "nonsense" ⟨"Something went wrong"⟩ rfl)

/-- C4 on a cache answering `FAKE` with the text `nonsense` against a cache answering not
found, the remote giving one record: both runs are equal. -/
theorem withCache_corrupt_eq_miss_witness :
    (testSegment (testProps 1) (cannedCache ("nonsense", true))).withCache stdDeps
        ((testSegment (testProps 1) storeEnvironment).getData stdDeps)
        (testWorld flatBody none) =
      (testSegment (testProps 1) (cannedCache ("", false))).withCache stdDeps
        ((testSegment (testProps 1) storeEnvironment).getData stdDeps)
        (testWorld flatBody none) :=
  (withCache_corrupt_eq_miss stdDeps
    (testSegment (testProps 1) (cannedCache ("nonsense", true)))
    (testSegment (testProps 1) (cannedCache ("", false)))
    ((testSegment (testProps 1) storeEnvironment).getData stdDeps)
    (testWorld flatBody none)
    { testWorld flatBody none with calls := [Call.cacheGet "FAKE"] }
    "FAKE" "nonsense" "" ⟨"invalid JSON text"⟩ (by decide) (by decide) rfl rfl rfl
    (by decide) rfl).1

/-- C5 on the store environment with one record at the remote: the second call, wrapping
a function that would fault, returns the record of the first call. -/
theorem withCache_second_call_witness :
    ((testSegment (testProps 1) storeEnvironment).withCache stdDeps
        (fun w => (Outcome.fault "not to be called", w))
        ((testSegment (testProps 1) storeEnvironment).withCache stdDeps
          ((testSegment (testProps 1) storeEnvironment).getData stdDeps)
          (testWorld flatBody none)).2).1 = .ret (some ⟨150, "Flat"⟩, none) := by
  rw [withCache_second_call stdDeps (testSegment (testProps 1) storeEnvironment)
    ((testSegment (testProps 1) storeEnvironment).getData stdDeps)
    (fun w => (Outcome.fault "not to be called", w))
    (testWorld flatBody none)
    { testWorld flatBody none with calls := [Call.cacheGet "FAKE"] }
    { testWorld flatBody none with calls := [Call.cacheGet "FAKE", Call.doGet "FAKE" 20] }
    "" ⟨150, "Flat"⟩
    (fun v t w' => storeEnvironment_faithful _ v t w')
    ⟨_, goJson_round_trip ⟨150, "Flat"⟩ (by decide) (by decide)⟩ rfl
    (getData_first stdDeps _ _ _ flatBody (some ⟨150, "Flat"⟩) [] rfl (by decide))]

/-! ## Initialization -/

/-- C6: when `cache_timeout` is set to the integer `t`, after `init` the predicate
`isCacheEnabled` holds exactly when `0 < t`; for `0 < t` the bound function is the cache
decorator around `getData`; for `t ≤ 0` it is `getData` itself, and a call of it leaves the
world as the single GET left it (no cache read, no cache write). -/
theorem init_cache_decision (D : Deps) (ns : nightscout W) (props : properties)
    (env : environmentInfo W) (t : Int)
    (hset : props.values NSCacheTimeout = some (.int t)) :
    ((ns.init props env).isCacheEnabled = true ↔ 0 < t) ∧
    (0 < t → (ns.init props env).getFunc = Fetch.withCache Fetch.getData ∧
      (ns.init props env).getFunc.call D (ns.init props env) =
        (ns.init props env).withCache D ((ns.init props env).getData D)) ∧
    (t ≤ 0 → (ns.init props env).getFunc = Fetch.getData ∧
      (ns.init props env).getFunc.call D (ns.init props env) = (ns.init props env).getData D ∧
      ∀ w, ((ns.init props env).getFunc.call D (ns.init props env) w).2 =
        (env.doGet (props.getString URL "")
          (props.getInt HTTPTimeout D.DefaultHTTPTimeout) w).2) := by
  have hto : props.getInt NSCacheTimeout 5 = t := by simp [properties.getInt, hset]
  refine ⟨?_, fun ht => ?_, fun ht => ?_⟩
  · simp [nightscout.init, nightscout.isCacheEnabled, hto]
    split <;> simp_all
  · have hf : (ns.init props env).getFunc = Fetch.withCache Fetch.getData := by
      simp [nightscout.init, nightscout.isCacheEnabled, hto, ht]
    exact ⟨hf, by rw [hf]; rfl⟩
  · have hf : (ns.init props env).getFunc = Fetch.getData := by
      simp [nightscout.init, nightscout.isCacheEnabled, hto, not_lt.mpr ht]
    refine ⟨hf, by rw [hf]; rfl, fun w => ?_⟩
    rw [hf]
    simp only [Fetch.call, nightscout.getData]
    have hurl : (ns.init props env).url = props.getString URL "" := by
      simp [nightscout.init, nightscout.isCacheEnabled, hto, not_lt.mpr ht]
    have hprops : (ns.init props env).props = props := by
      simp [nightscout.init, nightscout.isCacheEnabled, hto, not_lt.mpr ht]
    have henv : (ns.init props env).env = env := by
      simp [nightscout.init, nightscout.isCacheEnabled, hto, not_lt.mpr ht]
    rw [hurl, hprops, henv]
    rcases env.doGet (props.getString URL "")
      (props.getInt HTTPTimeout D.DefaultHTTPTimeout) w with ⟨⟨body, err⟩, w1⟩
    cases err with
    | some err => rfl
    | none =>
      simp only
      cases D.json.unmarshalArr body with
      | error e => rfl
      | ok arr => cases arr <;> rfl

/-- C6 at the configurations of `TestCacheEnabled` (1), `TestCacheDisabled` (0) and at a
negative timeout (-3). -/
theorem init_cache_decision_witness :
    (testSegment (testProps 1) storeEnvironment).getFunc = Fetch.withCache Fetch.getData ∧
    (testSegment (testProps 0) storeEnvironment).getFunc = Fetch.getData ∧
    (testSegment (testProps (-3)) storeEnvironment).getFunc = Fetch.getData :=
  ⟨((init_cache_decision stdDeps (nightscout.zero (testProps 1) storeEnvironment)
      (testProps 1) storeEnvironment 1 (by decide)).2.1 (by decide)).1,
   ((init_cache_decision stdDeps (nightscout.zero (testProps 0) storeEnvironment)
      (testProps 0) storeEnvironment 0 (by decide)).2.2 (by decide)).1,
   ((init_cache_decision stdDeps (nightscout.zero (testProps (-3)) storeEnvironment)
      (testProps (-3)) storeEnvironment (-3) (by decide)).2.2 (by decide)).1⟩

/-- C7 as amended: when the configuration holds no `cache_timeout`, `init` takes the
default of 5 minutes, so caching is enabled and the bound function is the cache decorator
around `getData`. -/
theorem init_absent_ttl (ns : nightscout W) (props : properties) (env : environmentInfo W)
    (habsent : props.values NSCacheTimeout = none) :
    (ns.init props env).cacheTimeout = 5 ∧
    (ns.init props env).isCacheEnabled = true ∧
    (ns.init props env).getFunc = Fetch.withCache Fetch.getData := by
  have hto : props.getInt NSCacheTimeout 5 = 5 := by simp [properties.getInt, habsent]
  simp [nightscout.init, nightscout.isCacheEnabled, hto]

/-- C7 as amended, at a configuration that holds only `url`. -/
theorem init_absent_ttl_witness :
    (testSegment (propsOf [(URL, .str "FAKE")]) storeEnvironment).cacheTimeout = 5 ∧
    (testSegment (propsOf [(URL, .str "FAKE")]) storeEnvironment).isCacheEnabled = true ∧
    (testSegment (propsOf [(URL, .str "FAKE")]) storeEnvironment).getFunc =
      Fetch.withCache Fetch.getData :=
  init_absent_ttl _ _ _ (by decide)

/-- C7 as stated fails: a configuration that holds only `url` has no `cache_timeout`, yet
after `init` caching is enabled and the bound function is not the raw `getData`. -/
theorem init_absent_ttl_counterexample :
    (propsOf [(URL, .str "FAKE")]).values NSCacheTimeout = none ∧
    ¬ ((testSegment (propsOf [(URL, .str "FAKE")]) storeEnvironment).isCacheEnabled = false ∧
      (testSegment (propsOf [(URL, .str "FAKE")]) storeEnvironment).getFunc = Fetch.getData) := by
  refine ⟨by decide, ?_⟩
  rintro ⟨h, -⟩
  revert h
  decide

/-! ## Fetcher -/

/-- When the GET succeeds and the body decodes to an array without elements, `getData`
faults on `arr[0]`. -/
theorem getData_empty_array (D : Deps) (ns : nightscout W) (w w1 : W) (body : String)
    (hget : ns.env.doGet ns.url (ns.props.getInt HTTPTimeout D.DefaultHTTPTimeout) w =
      ((body, none), w1))
    (hparse : D.json.unmarshalArr body = .ok []) :
    ns.getData D w = (.fault "index out of range [0] with length 0", w1) := by
  simp [nightscout.getData, hget, hparse]

/-- C8 fails on the code: with the response body `[]` (GET succeeded, caching off),
`getData` returns no error value but faults on `arr[0]`, and `enabled` faults with it
instead of returning false. -/
theorem getData_empty_array_faults :
    goJson.unmarshalArr "[]" = .ok [] ∧
    ((testSegment (testProps 0) storeEnvironment).getData stdDeps (testWorld "[]" none)).1 =
      Outcome.fault "index out of range [0] with length 0" ∧
    ((testSegment (testProps 0) storeEnvironment).enabled stdDeps (testWorld "[]" none)).1 =
      Outcome.fault "index out of range [0] with length 0" := by
  refine ⟨by decide, ?_, ?_⟩
  · rw [getData_empty_array stdDeps _ (testWorld "[]" none) _ "[]" rfl (by decide)]
  · have hf : (testSegment (testProps 0) storeEnvironment).getFunc = Fetch.getData := by decide
    simp only [nightscout.enabled, hf, Fetch.call]
    rw [getData_empty_array stdDeps _ (testWorld "[]" none) _ "[]" rfl (by decide)]

/-- C13: with `(body, err)` the answer of the GET: when the GET fails, `getData` returns its
error whatever the codec (no body is parsed); when the body does not decode, it returns the
decoding error; when the body decodes to an array with a first element, it returns that
element and no error, whatever the remaining elements; and it returns an error exactly
when the GET fails or the body does not decode. -/
theorem getData_result (D : Deps) (ns : nightscout W) (w w1 : W) (body : String)
    (err : Option GoError)
    (hget : ns.env.doGet ns.url (ns.props.getInt HTTPTimeout D.DefaultHTTPTimeout) w =
      ((body, err), w1)) :
    (∀ e, err = some e → ∀ J : JsonCodec,
      ns.getData { D with json := J } w = (.ret (none, some e), w1)) ∧
    (∀ e, err = none → D.json.unmarshalArr body = .error e →
      ns.getData D w = (.ret (none, some e), w1)) ∧
    (∀ first rest, err = none → D.json.unmarshalArr body = .ok (first :: rest) →
      ns.getData D w = (.ret (first, none), w1)) ∧
    ((∃ data e, (ns.getData D w).1 = .ret (data, some e)) ↔
      (err ≠ none ∨ ∃ e, D.json.unmarshalArr body = .error e)) := by
  refine ⟨?_, ?_, ?_, ?_⟩
  · rintro e rfl J
    simp [nightscout.getData, hget]
  · rintro e rfl hparse
    simp [nightscout.getData, hget, hparse]
  · rintro first rest rfl hparse
    simp [nightscout.getData, hget, hparse]
  · cases err with
    | some e => simp [nightscout.getData, hget]
    | none =>
      cases hparse : D.json.unmarshalArr body with
      | error e => simp [nightscout.getData, hget, hparse]
      | ok arr => cases arr <;> simp [nightscout.getData, hget, hparse]

/-- C13 on the case "Error in retrieving data": the GET fails, its error is returned. -/
theorem getData_result_witness :
    (testSegment (testProps 0) storeEnvironment).getData stdDeps
        (testWorld "nonsense" (some ⟨"Something went wrong"⟩)) =
      (.ret (none, some ⟨"Something went wrong"⟩),
        { testWorld "nonsense" (some ⟨"Something went wrong"⟩) with
          calls := [Call.doGet "FAKE" 20] }) :=
  (getData_result stdDeps (testSegment (testProps 0) storeEnvironment)
    (testWorld "nonsense" (some ⟨"Something went wrong"⟩))
    { testWorld "nonsense" (some ⟨"Something went wrong"⟩) with
      calls := [Call.doGet "FAKE" 20] }
    "nonsense" (some ⟨"Something went wrong"⟩) rfl).1 _ rfl goJson

/-! ## Façade -/

theorem enabled_of_error (D : Deps) (ns : nightscout W) (w w1 : W)
    (data : Option nightscoutData) (e : GoError)
    (hcall : ns.getFunc.call D ns w = (.ret (data, some e), w1)) :
    ns.enabled D w = (.ret (false, ns), w1) := by
  simp [nightscout.enabled, hcall]

theorem enabled_of_record (D : Deps) (ns : nightscout W) (w w1 : W) (r : nightscoutData)
    (hcall : ns.getFunc.call D ns w = (.ret (some r, none), w1)) :
    ns.enabled D w =
      (.ret (true, { ns with
        Sgv := r.Sgv, Direction := r.Direction,
        TrendIcon := ({ ns with Sgv := r.Sgv, Direction := r.Direction }).getTrendIcon }),
        w1) := by
  simp [nightscout.enabled, hcall]

theorem enabled_of_nil (D : Deps) (ns : nightscout W) (w w1 : W)
    (hcall : ns.getFunc.call D ns w = (.ret (none, none), w1)) :
    ns.enabled D w = (.fault "nil pointer dereference", w1) := by
  simp [nightscout.enabled, hcall]

/-- The world after `enabled` is the world after the one call of the bound function. -/
theorem enabled_world (D : Deps) (ns : nightscout W) (w : W) :
    (ns.enabled D w).2 = (ns.getFunc.call D ns w).2 := by
  rcases hcall : ns.getFunc.call D ns w with ⟨o, w1⟩
  rcases o with ⟨data, err⟩ | reason
  · cases err with
    | some e => simp [nightscout.enabled, hcall]
    | none => cases data <;> simp [nightscout.enabled, hcall]
  · simp [nightscout.enabled, hcall]

/-- The two ways in which `enabled` returns. -/
theorem enabled_ret_cases (D : Deps) (ns ns1 : nightscout W) (w w1 : W) (b : Bool)
    (h : ns.enabled D w = (.ret (b, ns1), w1)) :
    (b = false ∧ ns1 = ns ∧ ∃ data e, ns.getFunc.call D ns w = (.ret (data, some e), w1)) ∨
    (b = true ∧ ∃ r, ns.getFunc.call D ns w = (.ret (some r, none), w1) ∧
      ns1 = { ns with
        Sgv := r.Sgv, Direction := r.Direction,
        TrendIcon := ({ ns with Sgv := r.Sgv, Direction := r.Direction }).getTrendIcon }) := by
  rcases hcall : ns.getFunc.call D ns w with ⟨o, w2⟩
  rcases o with ⟨data, err⟩ | reason
  · cases err with
    | some e =>
      rw [enabled_of_error D ns w w2 data e hcall] at h
      simp only [Prod.mk.injEq, Outcome.ret.injEq] at h
      obtain ⟨⟨hb, hns⟩, hw⟩ := h
      subst hw
      exact Or.inl ⟨hb.symm, hns.symm, data, e, rfl⟩
    | none =>
      cases data with
      | none =>
        rw [enabled_of_nil D ns w w2 hcall] at h
        simp at h
      | some r =>
        rw [enabled_of_record D ns w w2 r hcall] at h
        simp only [Prod.mk.injEq, Outcome.ret.injEq] at h
        obtain ⟨⟨hb, hns⟩, hw⟩ := h
        subst hw
        exact Or.inr ⟨hb.symm, r, rfl, hns.symm⟩
  · simp [nightscout.enabled, hcall] at h

/-- C11: when the bound function returns an error, `enabled` returns false and the segment
is the one before the call, field by field; and `enabled` returns false only when the bound
function returned an error. -/
theorem enabled_failure (D : Deps) (ns : nightscout W) (w : W) :
    (∀ data e w1, ns.getFunc.call D ns w = (.ret (data, some e), w1) →
      ns.enabled D w = (.ret (false, ns), w1)) ∧
    (∀ ns1 w1, ns.enabled D w = (.ret (false, ns1), w1) →
      ns1 = ns ∧ ∃ data e, ns.getFunc.call D ns w = (.ret (data, some e), w1)) := by
  refine ⟨fun data e w1 h => enabled_of_error D ns w w1 data e h, fun ns1 w1 h => ?_⟩
  rcases enabled_ret_cases D ns ns1 w w1 false h with ⟨-, hns, hex⟩ | ⟨hb, -⟩
  · exact ⟨hns, hex⟩
  · cases hb

/-- C11 on the case "Error in retrieving data" (caching off, the GET fails): `enabled`
returns false and the segment is unchanged. -/
theorem enabled_failure_witness :
    (testSegment (testProps 0) storeEnvironment).enabled stdDeps
        (testWorld "nonsense" (some ⟨"Something went wrong"⟩)) =
      (.ret (false, testSegment (testProps 0) storeEnvironment),
        { testWorld "nonsense" (some ⟨"Something went wrong"⟩) with
          calls := [Call.doGet "FAKE" 20] }) :=
  (enabled_failure stdDeps (testSegment (testProps 0) storeEnvironment)
    (testWorld "nonsense" (some ⟨"Something went wrong"⟩))).1 none
    ⟨"Something went wrong"⟩ _
    (getData_get_error stdDeps _ _ _ "nonsense" ⟨"Something went wrong"⟩ rfl)

/-- The trend icon depends on the direction and the configuration only. -/
theorem getTrendIcon_congr (m n : nightscout W) (hd : m.Direction = n.Direction)
    (hp : m.props = n.props) : m.getTrendIcon = n.getTrendIcon := by
  simp [nightscout.getTrendIcon, hd, hp]

/-- C12: when the bound function returns the record `r` and no error, `enabled` runs it
once (the world is the one that call left), returns true, and the segment afterwards has
`Sgv = r.Sgv`, `Direction = r.Direction` and `TrendIcon` the trend icon of `r.Direction`
under the configuration, all other fields unchanged. -/
theorem enabled_success (D : Deps) (ns : nightscout W) (w w1 : W) (r : nightscoutData)
    (hcall : ns.getFunc.call D ns w = (.ret (some r, none), w1)) :
    ∃ ns1, ns.enabled D w = (.ret (true, ns1), w1) ∧
      ns1.Sgv = r.Sgv ∧ ns1.Direction = r.Direction ∧
      (∀ m : nightscout W, m.Direction = r.Direction → m.props = ns.props →
        ns1.TrendIcon = m.getTrendIcon) ∧
      ns1.props = ns.props ∧ ns1.env = ns.env ∧ ns1.url = ns.url ∧
      ns1.cacheTimeout = ns.cacheTimeout ∧ ns1.getFunc = ns.getFunc := by
  refine ⟨_, enabled_of_record D ns w w1 r hcall, rfl, rfl, fun m hd hp => ?_,
    rfl, rfl, rfl, rfl, rfl⟩
  exact getTrendIcon_congr _ _ hd.symm hp.symm

/-- C12 on the response `flatBody` with caching off: the segment afterwards is the
initialized one with `Sgv` 150, `Direction` `Flat` and `TrendIcon` the right arrow. -/
theorem enabled_success_witness :
    ∃ ns1, (testSegment (testProps 0) storeEnvironment).enabled stdDeps
        (testWorld flatBody none) =
        (.ret (true, ns1),
          { testWorld flatBody none with calls := [Call.doGet "FAKE" 20] }) ∧
      ns1.Sgv = 150 ∧ ns1.Direction = "Flat" ∧ ns1.TrendIcon = "→" := by
  obtain ⟨ns1, h, hS, hD, hT, -⟩ :=
    enabled_success stdDeps (testSegment (testProps 0) storeEnvironment)
      (testWorld flatBody none)
      { testWorld flatBody none with calls := [Call.doGet "FAKE" 20] } ⟨150, "Flat"⟩
      (getData_first stdDeps _ _ _ flatBody (some ⟨150, "Flat"⟩) [] rfl (by decide))
  refine ⟨ns1, h, hS, hD, ?_⟩
  rw [hT { testSegment (testProps 0) storeEnvironment with Direction := "Flat" } rfl rfl]
  decide

/-- What `init` leaves in each field of the segment. -/
theorem init_fields (ns : nightscout W) (props : properties) (env : environmentInfo W) :
    (ns.init props env).props = props ∧ (ns.init props env).env = env ∧
    (ns.init props env).url = props.getString URL "" ∧
    (ns.init props env).cacheTimeout = props.getInt NSCacheTimeout 5 ∧
    (ns.init props env).getFunc =
      (if 0 < props.getInt NSCacheTimeout 5 then Fetch.withCache Fetch.getData
        else Fetch.getData) ∧
    (ns.init props env).Sgv = ns.Sgv ∧ (ns.init props env).Direction = ns.Direction ∧
    (ns.init props env).TrendIcon = ns.TrendIcon := by
  by_cases h : 0 < props.getInt NSCacheTimeout 5 <;>
    simp [nightscout.init, nightscout.isCacheEnabled, h]

/-- Two segments with the same fields are equal. -/
theorem nightscout_ext (a b : nightscout W) (h1 : a.props = b.props) (h2 : a.env = b.env)
    (h3 : a.url = b.url) (h4 : a.cacheTimeout = b.cacheTimeout) (h5 : a.getFunc = b.getFunc)
    (h6 : a.Sgv = b.Sgv) (h7 : a.Direction = b.Direction) (h8 : a.TrendIcon = b.TrendIcon) :
    a = b := by
  cases a
  cases b
  simp only [nightscout.mk.injEq]
  exact ⟨h1, h2, h3, h4, h5, h6, h7, h8⟩

/-- A segment initialized with a timeout that is not positive runs `getData` on every
call of `enabled`: the world afterwards is the one the single GET left. -/
theorem enabled_uncached_world (D : Deps) (ns : nightscout W) (w : W)
    (hf : ns.getFunc = Fetch.getData) :
    (ns.enabled D w).2 =
      (ns.env.doGet ns.url (ns.props.getInt HTTPTimeout D.DefaultHTTPTimeout) w).2 := by
  rw [enabled_world, hf]
  simp only [Fetch.call, nightscout.getData]
  rcases ns.env.doGet ns.url (ns.props.getInt HTTPTimeout D.DefaultHTTPTimeout) w
    with ⟨⟨body, err⟩, w1⟩
  cases err with
  | some err => rfl
  | none =>
    simp only
    cases D.json.unmarshalArr body with
    | error e => rfl
    | ok arr => cases arr <;> rfl

/-- A call of `enabled` that returns changes none of the fields set by `init`. -/
theorem enabled_keeps_binding (D : Deps) (ns ns1 : nightscout W) (w w1 : W) (b : Bool)
    (h : ns.enabled D w = (.ret (b, ns1), w1)) :
    ns1.props = ns.props ∧ ns1.env = ns.env ∧ ns1.url = ns.url ∧
    ns1.cacheTimeout = ns.cacheTimeout ∧ ns1.getFunc = ns.getFunc := by
  rcases enabled_ret_cases D ns ns1 w w1 b h with ⟨-, rfl, -⟩ | ⟨-, r, -, rfl⟩
  · exact ⟨rfl, rfl, rfl, rfl, rfl⟩
  · exact ⟨rfl, rfl, rfl, rfl, rfl⟩

/-- C14: a segment initialized with a cache timeout of 0 (or less) does one GET per call of
`enabled` and nothing else: after a first call the world is the one its GET left, and
after a second call it is the one a second GET left, so the cache store is neither read
nor written. -/
theorem enabled_twice_uncached (D : Deps) (ns0 : nightscout W) (props : properties)
    (env : environmentInfo W) (t : Int) (w : W)
    (hset : props.values NSCacheTimeout = some (.int t)) (ht : t ≤ 0) :
    ((ns0.init props env).enabled D w).2 =
      (env.doGet (props.getString URL "")
        (props.getInt HTTPTimeout D.DefaultHTTPTimeout) w).2 ∧
    ∀ b ns1 w1, (ns0.init props env).enabled D w = (.ret (b, ns1), w1) →
      (ns1.enabled D w1).2 =
        (env.doGet (props.getString URL "") (props.getInt HTTPTimeout D.DefaultHTTPTimeout)
          (env.doGet (props.getString URL "")
            (props.getInt HTTPTimeout D.DefaultHTTPTimeout) w).2).2 := by
  obtain ⟨hp, he, hu, -, hg, -⟩ := init_fields ns0 props env
  have hto : props.getInt NSCacheTimeout 5 = t := by simp [properties.getInt, hset]
  have hf : (ns0.init props env).getFunc = Fetch.getData := by
    rw [hg, hto, if_neg (not_lt.mpr ht)]
  have h1 := enabled_uncached_world D (ns0.init props env) w hf
  rw [hp, he, hu] at h1
  refine ⟨h1, fun b ns1 w1 h => ?_⟩
  obtain ⟨kp, ke, ku, -, kg⟩ := enabled_keeps_binding D _ ns1 w w1 b h
  have h2 := enabled_uncached_world D ns1 w1 (kg.trans hf)
  rw [kp, ke, ku, hp, he, hu] at h2
  have hw : w1 = ((ns0.init props env).enabled D w).2 := by rw [h]
  rw [h2, hw, h1]

/-- C14 on the recording environment with `cache_timeout` 0: after two calls of `enabled`
the calls made are two GETs and the cache store is still empty. -/
theorem enabled_twice_uncached_witness :
    ∃ ns1 w1, (testSegment (testProps 0) storeEnvironment).enabled stdDeps
        (testWorld flatBody none) = (.ret (true, ns1), w1) ∧
      (ns1.enabled stdDeps w1).2.calls = [Call.doGet "FAKE" 20, Call.doGet "FAKE" 20] ∧
      (ns1.enabled stdDeps w1).2.store = [] := by
  have hfirst := enabled_of_record stdDeps (testSegment (testProps 0) storeEnvironment)
    (testWorld flatBody none)
    { testWorld flatBody none with calls := [Call.doGet "FAKE" 20] } ⟨150, "Flat"⟩
    (getData_first stdDeps _ _ _ flatBody (some ⟨150, "Flat"⟩) [] rfl (by decide))
  have hsecond := (enabled_twice_uncached stdDeps
    (nightscout.zero (testProps 0) storeEnvironment) (testProps 0) storeEnvironment 0
    (testWorld flatBody none) (by decide) (by decide)).2 _ _ _ hfirst
  exact ⟨_, _, hfirst, by rw [hsecond]; rfl, by rw [hsecond]; rfl⟩

/-! ## Rendering -/

/-- C15: `string` hands the renderer the configured `segment_template`, or `{{.Sgv}}` when
none is configured, with the segment as context and its environment; it returns the text
of the renderer when there is no error, and the message of the error otherwise. -/
theorem string_render (render : Renderer W) (ns : nightscout W) (tpl : String)
    (htpl : ns.props.values SegmentTemplate = some (.str tpl) ∨
      (ns.props.values SegmentTemplate = none ∧ tpl = "\x7b\x7b.Sgv\x7d\x7d")) :
    (∀ text, render { Template := tpl, Context := ns, Env := ns.env } = (text, none) →
      ns.string render = text) ∧
    (∀ text e, render { Template := tpl, Context := ns, Env := ns.env } = (text, some e) →
      ns.string render = e.msg) := by
  have hs : ns.props.getString SegmentTemplate "\x7b\x7b.Sgv\x7d\x7d" = tpl := by
    rcases htpl with h | ⟨h, rfl⟩
    · exact getString_str _ _ _ _ h
    · exact getString_absent _ _ _ h
  refine ⟨fun text h => ?_, fun text e h => ?_⟩
  · simp [nightscout.string, hs, h]
  · simp [nightscout.string, hs, h]

/-- C15 with no template configured and a renderer that fails: the text of the segment is
the message of the error. -/
theorem string_render_witness :
    (testSegment (testProps 0) storeEnvironment).string
      (fun t => (t.Template, some ⟨"template: failed"⟩)) = "template: failed" :=
  (string_render (fun t => (t.Template, some ⟨"template: failed"⟩))
    (testSegment (testProps 0) storeEnvironment) "\x7b\x7b.Sgv\x7d\x7d"
    (Or.inr ⟨by decide, rfl⟩)).2 "\x7b\x7b.Sgv\x7d\x7d" ⟨"template: failed"⟩ rfl

/-- The reference renderer on the template of the tests: a space, the decimal text of
`Sgv` and the trend icon. -/
theorem fieldRenderer_testTemplate (ns : nightscout W) (env : environmentInfo W) :
    fieldRenderer { Template := testTemplate, Context := ns, Env := env } =
      (" " ++ String.mk (showInt ns.Sgv) ++ ns.TrendIcon, none) := by
  have hsplit : splitTemplate false testTemplate.data [] =
      some [Piece.text [' '], Piece.action ".Sgv".data, Piece.text [],
        Piece.action ".TrendIcon".data, Piece.text []] := by decide
  have h1 : (".TrendIcon".data = ".Sgv".data) = False := by decide
  have h2 : (".TrendIcon".data = ".Direction".data) = False := by decide
  simp only [fieldRenderer, hsplit, renderPieces, renderPiece, if_true, h1, h2, if_false,
    List.append_nil, List.nil_append]
  congr 1

/-- Without icon overrides the trend icon of a recognized direction is its built-in glyph. -/
theorem getTrendIcon_default (ns : nightscout W) (d glyph : String)
    (hicons : ∀ k ∈ [DoubleUpIcon, SingleUpIcon, FortyFiveUpIcon, FlatIcon,
      FortyFiveDownIcon, SingleDownIcon, DoubleDownIcon], ns.props.values k = none)
    (hd : (d, glyph) ∈ [("DoubleUp", "↑↑"), ("SingleUp", "↑"), ("FortyFiveUp", "↗"),
      ("Flat", "→"), ("FortyFiveDown", "↘"), ("SingleDown", "↓"), ("DoubleDown", "↓↓")])
    (hdir : ns.Direction = d) : ns.getTrendIcon = glyph := by
  simp only [List.mem_cons, List.mem_singleton, List.not_mem_nil, or_false,
    forall_eq_or_imp, forall_eq] at hicons
  obtain ⟨i1, i2, i3, i4, i5, i6, i7⟩ := hicons
  simp only [List.mem_cons, Prod.mk.injEq, List.mem_singleton, List.not_mem_nil,
    or_false] at hd
  rcases hd with h | h | h | h | h | h | h <;>
    obtain ⟨rfl, rfl⟩ := h <;>
    simp [nightscout.getTrendIcon, hdir, properties.getString, i1, i2, i3, i4, i5, i6, i7]

/-- C16: with caching off, no icon override and the template of the tests rendered by the
reference renderer, for a response whose first record has `sgv` `n` and a recognized
direction `d`, `enabled` returns true and `string` is a space, the decimal text of `n` and
the built-in glyph of `d`. -/
theorem end_to_end (D : Deps) (ns0 : nightscout W) (props : properties)
    (env : environmentInfo W) (w w1 : W) (body : String) (n : Int) (d glyph : String)
    (rest : List (Option nightscoutData))
    (hcache : props.values NSCacheTimeout = some (.int 0))
    (hicons : ∀ k ∈ [DoubleUpIcon, SingleUpIcon, FortyFiveUpIcon, FlatIcon,
      FortyFiveDownIcon, SingleDownIcon, DoubleDownIcon], props.values k = none)
    (htpl : props.values SegmentTemplate = some (.str testTemplate))
    (hget : env.doGet (props.getString URL "")
      (props.getInt HTTPTimeout D.DefaultHTTPTimeout) w = ((body, none), w1))
    (hbody : D.json.unmarshalArr body = .ok (some ⟨n, d⟩ :: rest))
    (hd : (d, glyph) ∈ [("DoubleUp", "↑↑"), ("SingleUp", "↑"), ("FortyFiveUp", "↗"),
      ("Flat", "→"), ("FortyFiveDown", "↘"), ("SingleDown", "↓"), ("DoubleDown", "↓↓")]) :
    ∃ ns1, (ns0.init props env).enabled D w = (.ret (true, ns1), w1) ∧
      ns1.string fieldRenderer = " " ++ String.mk (showInt n) ++ glyph := by
  obtain ⟨hp, he, hu, -, hg, -⟩ := init_fields ns0 props env
  have hto : props.getInt NSCacheTimeout 5 = 0 := by simp [properties.getInt, hcache]
  have hf : (ns0.init props env).getFunc = Fetch.getData := by
    rw [hg, hto]
    rfl
  have hcall : (ns0.init props env).getFunc.call D (ns0.init props env) w =
      (.ret (some ⟨n, d⟩, none), w1) := by
    rw [hf]
    exact getData_first D _ w w1 body _ rest (by rw [hp, he, hu]; exact hget) hbody
  refine ⟨_, enabled_of_record D _ w w1 ⟨n, d⟩ hcall, ?_⟩
  have hs : props.getString SegmentTemplate "\x7b\x7b.Sgv\x7d\x7d" = testTemplate :=
    getString_str _ _ _ _ htpl
  simp only [nightscout.string, hp, hs, fieldRenderer_testTemplate]
  rw [getTrendIcon_default _ d glyph (by simpa using hicons) hd rfl]

/-- C16 on the two responses of the specification: `flatBody` gives " 150→" and `downBody`
gives " 50↓↓". -/
theorem end_to_end_witness :
    (∃ ns1, (testSegment templateProps storeEnvironment).enabled stdDeps
        (testWorld flatBody none) =
        (.ret (true, ns1), { testWorld flatBody none with calls := [Call.doGet "FAKE" 20] }) ∧
      ns1.string fieldRenderer = " 150→") ∧
    (∃ ns1, (testSegment templateProps storeEnvironment).enabled stdDeps
        (testWorld downBody none) =
        (.ret (true, ns1), { testWorld downBody none with calls := [Call.doGet "FAKE" 20] }) ∧
      ns1.string fieldRenderer = " 50↓↓") :=
  ⟨end_to_end stdDeps (nightscout.zero templateProps storeEnvironment) templateProps
      storeEnvironment (testWorld flatBody none) _ flatBody 150 "Flat" "→" []
      (by decide) (by decide) (by decide) rfl (by decide) (by decide),
   end_to_end stdDeps (nightscout.zero templateProps storeEnvironment) templateProps
      storeEnvironment (testWorld downBody none) _ downBody 50 "DoubleDown" "↓↓" []
      (by decide) (by decide) (by decide) rfl (by decide) (by decide)⟩

/-! ## Re-initialization -/

/-- C17: `init` with a configuration is idempotent; `url`, `cacheTimeout` and the bound
function after `init` are the same whatever the state before, and the bound function is
`getData` or one decorator around `getData`, never a decorator around a decorator; with a
timeout that is not positive it is `getData`, also when a decorator was bound before. -/
theorem init_idempotent (ns ns2 : nightscout W) (props : properties)
    (env : environmentInfo W) :
    (ns.init props env).init props env = ns.init props env ∧
    (ns.init props env).url = (ns2.init props env).url ∧
    (ns.init props env).cacheTimeout = (ns2.init props env).cacheTimeout ∧
    (ns.init props env).getFunc = (ns2.init props env).getFunc ∧
    ((ns.init props env).getFunc = Fetch.getData ∨
      (ns.init props env).getFunc = Fetch.withCache Fetch.getData) ∧
    (∀ t, props.values NSCacheTimeout = some (.int t) → t ≤ 0 →
      ∀ (props0 : properties) (env0 : environmentInfo W),
        ((ns.init props0 env0).init props env).getFunc = Fetch.getData) := by
  obtain ⟨a1, a2, a3, a4, a5, a6, a7, a8⟩ := init_fields ns props env
  obtain ⟨b1, b2, b3, b4, b5, -⟩ := init_fields ns2 props env
  obtain ⟨c1, c2, c3, c4, c5, c6, c7, c8⟩ := init_fields (ns.init props env) props env
  refine ⟨?_, ?_, ?_, ?_, ?_, ?_⟩
  · exact nightscout_ext _ _ (c1.trans a1.symm) (c2.trans a2.symm) (c3.trans a3.symm)
      (c4.trans a4.symm) (c5.trans a5.symm) c6 c7 c8
  · rw [a3, b3]
  · rw [a4, b4]
  · rw [a5, b5]
  · rw [a5]
    split
    · exact Or.inr rfl
    · exact Or.inl rfl
  · intro t hset ht props0 env0
    obtain ⟨-, -, -, -, d5, -⟩ := init_fields (ns.init props0 env0) props env
    have hto : props.getInt NSCacheTimeout 5 = t := by simp [properties.getInt, hset]
    rw [d5, hto, if_neg (not_lt.mpr ht)]

/-- C17 on the configurations of the tests: after `init` with timeout 1 the decorator is
bound, and `init` with timeout 0 on that state binds `getData` again. -/
theorem init_idempotent_witness :
    (testSegment (testProps 1) storeEnvironment).getFunc = Fetch.withCache Fetch.getData ∧
    ((testSegment (testProps 1) storeEnvironment).init (testProps 0) storeEnvironment).getFunc =
      Fetch.getData :=
  ⟨by decide,
   (init_idempotent (nightscout.zero (testProps 1) storeEnvironment)
      (nightscout.zero (testProps 1) storeEnvironment) (testProps 0) storeEnvironment).2.2.2.2.2
      0 (by decide) (by decide) (testProps 1) storeEnvironment⟩

/-! ## Nil records -/

/-- C18 fails on the code: with the response body `[null]` the array has one element, the
nil pointer; `getData` returns it with no error, the cache decorator returns it as well
(and writes `null` to the cache), and `enabled` faults on reading `data.Sgv`. -/
theorem getData_null_element_faults :
    goJson.unmarshalArr "[null]" = .ok [none] ∧
    (testSegment (testProps 0) storeEnvironment).getData stdDeps (testWorld "[null]" none) =
      (.ret (none, none),
        { testWorld "[null]" none with calls := [Call.doGet "FAKE" 20] }) ∧
    ((testSegment (testProps 0) storeEnvironment).enabled stdDeps
        (testWorld "[null]" none)).1 = Outcome.fault "nil pointer dereference" ∧
    (testSegment (testProps 1) storeEnvironment).withCache stdDeps
        ((testSegment (testProps 1) storeEnvironment).getData stdDeps)
        (testWorld "[null]" none) =
      (.ret (none, none),
        { testWorld "[null]" none with
          store := [("FAKE", "null")],
          calls := [Call.cacheGet "FAKE", Call.doGet "FAKE" 20,
            Call.cacheSet "FAKE" "null" 1] }) ∧
    ((testSegment (testProps 1) storeEnvironment).enabled stdDeps
        (testWorld "[null]" none)).1 = Outcome.fault "nil pointer dereference" := by
  have hget := getData_first stdDeps (testSegment (testProps 0) storeEnvironment)
    (testWorld "[null]" none)
    { testWorld "[null]" none with calls := [Call.doGet "FAKE" 20] } "[null]" none []
    rfl (by decide)
  have hinner := getData_first stdDeps (testSegment (testProps 1) storeEnvironment)
    { testWorld "[null]" none with calls := [Call.cacheGet "FAKE"] }
    { testWorld "[null]" none with calls := [Call.cacheGet "FAKE", Call.doGet "FAKE" 20] }
    "[null]" none [] rfl (by decide)
  have hcached : (testSegment (testProps 1) storeEnvironment).withCache stdDeps
      ((testSegment (testProps 1) storeEnvironment).getData stdDeps)
      (testWorld "[null]" none) =
      (.ret (none, none),
        { testWorld "[null]" none with
          store := [("FAKE", "null")],
          calls := [Call.cacheGet "FAKE", Call.doGet "FAKE" 20,
            Call.cacheSet "FAKE" "null" 1] }) := by
    rw [withCache_fallthrough stdDeps _ _ (testWorld "[null]" none)
      { testWorld "[null]" none with calls := [Call.cacheGet "FAKE"] } "" false rfl
      (Or.inl rfl), hinner]
    rfl
  refine ⟨by decide, hget, ?_, hcached, ?_⟩
  · have hf : (testSegment (testProps 0) storeEnvironment).getFunc = Fetch.getData := by
      decide
    rw [enabled_of_nil stdDeps _ _ _ (by rw [hf]; exact hget)]
  · have hf : (testSegment (testProps 1) storeEnvironment).getFunc =
        Fetch.withCache Fetch.getData := by decide
    rw [enabled_of_nil stdDeps _ _ _ (by rw [hf]; exact hcached)]

/-! ## Invariant of the render context -/

/-- C19: in every state reachable from a zero-valued segment by `init` with a fixed
configuration followed by calls of `enabled`, `TrendIcon` is the trend icon of the current
`Direction`. -/
theorem trendIcon_consistent (D : Deps) (props : properties) (env : environmentInfo W)
    (ns : nightscout W) (h : Reachable D props env ns) :
    ns.TrendIcon = ns.getTrendIcon := by
  induction h with
  | start ns0 hS hD hT =>
    obtain ⟨-, -, -, -, -, -, a7, a8⟩ := init_fields ns0 props env
    have hdir : (ns0.init props env).Direction = "" := a7.trans hD
    rw [a8, hT]
    simp [nightscout.getTrendIcon, hdir]
  | step ns ns1 w w1 b _ hcall ih =>
    rcases enabled_ret_cases D ns ns1 w w1 b hcall with ⟨-, rfl, -⟩ | ⟨-, r, -, rfl⟩
    · exact ih
    · exact getTrendIcon_congr _ _ rfl rfl

/-- C19 on the state after `init` and one successful `enabled` on `flatBody`: the trend
icon is the right arrow, the icon of `Flat`. -/
theorem trendIcon_consistent_witness :
    ({ testSegment (testProps 0) storeEnvironment with
        Sgv := 150, Direction := "Flat", TrendIcon := "→" } : nightscout World).TrendIcon =
      ({ testSegment (testProps 0) storeEnvironment with
        Sgv := 150, Direction := "Flat", TrendIcon := "→" } : nightscout World).getTrendIcon :=
  trendIcon_consistent stdDeps (testProps 0) storeEnvironment _
    (Reachable.step (testSegment (testProps 0) storeEnvironment) _ (testWorld flatBody none)
      { testWorld flatBody none with calls := [Call.doGet "FAKE" 20] } true
      (Reachable.start (nightscout.zero (testProps 0) storeEnvironment) rfl rfl rfl)
      (enabled_of_record stdDeps (testSegment (testProps 0) storeEnvironment)
        (testWorld flatBody none)
        { testWorld flatBody none with calls := [Call.doGet "FAKE" 20] } ⟨150, "Flat"⟩
        (getData_first stdDeps _ _ _ flatBody (some ⟨150, "Flat"⟩) [] rfl (by decide))))

end Nightscout
